import Mathlib

set_option autoImplicit false
set_option maxHeartbeats 1000000

/-!
Verification of the SencilloDB storage engine (src/index.ts, src/query.ts)
against its natural-language specification.

The development shallowly embeds the engine: JavaScript values are the
inductive `JSValue`, the resident database and the on-disk tree are explicit
data, every operation of the `SencilloDB` class is a pure state-passing
function translated line by line from the source, and the `match` predicate
compiler of `query.js` is embedded as `matchFn`.  I/O is modelled at the
logical level: the codec contract of the spec is that a written file
round-trips exactly, so disk files hold the structured values themselves.
-/

namespace Sencillo

/-- JavaScript values as used by the engine: JSON data plus `undefined`.
Numbers are modelled as integers (the engine only produces integer ids and
the claims only exercise integer arithmetic); objects are insertion-ordered
key/value lists, matching the operational ordering of JavaScript objects. -/
inductive JSValue where
  | undef : JSValue
  | null : JSValue
  | bool : Bool → JSValue
  | num : Int → JSValue
  | str : String → JSValue
  | arr : List JSValue → JSValue
  | obj : List (String × JSValue) → JSValue

/-- JavaScript truthiness: `undefined`, `null`, `false`, `0` and the empty
string are falsy, everything else (including every object and array) truthy. -/
def toBool : JSValue → Bool
  | .undef => false
  | .null => false
  | .bool b => b
  | .num n => n != 0
  | .str s => s ≠ ""
  | .arr _ => true
  | .obj _ => true

/-- JavaScript strict equality `===`.  Primitive values compare structurally;
arrays and objects compare by reference, which the embedding models as never
equal (a filter literal and a stored document value are distinct allocations
in every scenario the engine produces). -/
def strictEq : JSValue → JSValue → Bool
  | .undef, .undef => true
  | .null, .null => true
  | .bool a, .bool b => a == b
  | .num a, .num b => a == b
  | .str a, .str b => a == b
  | _, _ => false

mutual

/-- JavaScript `String(v)` coercion restricted to the modelled values:
array elements are joined with commas (with `null`/`undefined` rendering
empty), plain objects render as `[object Object]`. -/
def jsString : JSValue → String
  | .undef => "undefined"
  | .null => "null"
  | .bool b => if b then "true" else "false"
  | .num n => toString n
  | .str s => s
  | .arr xs => String.intercalate "," (jsStringElems xs)
  | .obj _ => "[object Object]"

def jsStringElems : List JSValue → List String
  | [] => []
  | .undef :: rest => "" :: jsStringElems rest
  | .null :: rest => "" :: jsStringElems rest
  | v :: rest => jsString v :: jsStringElems rest

end

/-- Property read `item[key]`: lookup in an object, `undefined` otherwise.
All values the engine stores in partitions are objects, so the non-object
cases are never exercised by a stored document. -/
def getField (v : JSValue) (key : String) : JSValue :=
  match v with
  | .obj fields =>
    match fields.lookup key with
    | some w => w
    | none => .undef
  | _ => (.undef)

/-- The enumerable own properties walked by `for (const k in v)` and by
object spread: an object yields its fields, an array yields index keys
`"0"`, `"1"`, … with its elements, primitives yield nothing except strings,
which spread to indexed one-character strings. -/
def enumPairs : JSValue → List (String × JSValue)
  | .obj fields => fields
  | .arr xs => (List.range xs.length).zip xs |>.map (fun p => (toString p.1, p.2))
  | .str s => (List.range s.length).zip (s.toList.map (fun c => JSValue.str (String.mk [c])))
      |>.map (fun p => (toString p.1, p.2))
  | _ => []

/-- `obj[k] = v` on an insertion-ordered object: an existing key keeps its
position and is overwritten, a new key is appended. -/
def objSet (fields : List (String × JSValue)) (k : String) (v : JSValue) :
    List (String × JSValue) :=
  match fields with
  | [] => [(k, v)]
  | (k', w) :: rest =>
    if k' = k then (k', v) :: rest else (k', w) :: objSet rest k v

/-- Object spread `{...v, _id: n}` as produced by `create` and `update`. -/
def spreadWithId (data : JSValue) (n : Int) : JSValue :=
  .obj (objSet (enumPairs data) "_id" (.num n))

/-- Minimal JSON string quoting (escapes backslash and double quote). -/
def jsonQuote (s : String) : String :=
  "\"" ++ String.join (s.toList.map (fun c =>
    if c = '\\' then "\\\\"
    else if c = '"' then "\\\""
    else String.mk [c])) ++ "\""

mutual

/-- `JSON.stringify` on the modelled values; `none` for `undefined`
(which `JSON.stringify` maps to the JavaScript value `undefined`). -/
def jsonStringify : JSValue → Option String
  | .undef => none
  | .null => some "null"
  | .bool b => some (if b then "true" else "false")
  | .num n => some (toString n)
  | .str s => some (jsonQuote s)
  | .arr xs => some ("[" ++ String.intercalate "," (jsonElems xs) ++ "]")
  | .obj fields => some ("\x7b" ++ String.intercalate "," (jsonMembers fields) ++ "\x7d")

/-- Array elements: `undefined` entries serialize as `null`. -/
def jsonElems : List JSValue → List String
  | [] => []
  | v :: rest =>
    (match jsonStringify v with
     | some s => s
     | none => "null") :: jsonElems rest

/-- Object members: keys with `undefined` values are dropped. -/
def jsonMembers : List (String × JSValue) → List String
  | [] => []
  | (k, v) :: rest =>
    match jsonStringify v with
    | some s => (jsonQuote k ++ ":" ++ s) :: jsonMembers rest
    | none => jsonMembers rest

end

/-- `JSON.stringify(a) === JSON.stringify(b)`, the deep comparison the
matcher uses for its unknown-operator fallback. -/
def jsonEq (a b : JSValue) : Bool :=
  jsonStringify a == jsonStringify b

/-- JavaScript `ToNumber` restricted to the modelled values; `none` is NaN.
String parsing accepts an optional sign and decimal digits (the engine never
compares fractional numeric strings). -/
def toNumber : JSValue → Option Int
  | .undef => none
  | .null => some 0
  | .bool b => some (if b then 1 else 0)
  | .num n => some n
  | .str s =>
    let t := s.trim
    if t = "" then some 0
    else if t.startsWith "-" then
      let r := t.drop 1
      if r ≠ "" ∧ r.all Char.isDigit then some (-(r.toNat!)) else none
    else if t.all Char.isDigit then some (Int.ofNat t.toNat!) else none
  | .arr _ => none
  | .obj _ => none

/-- `ToPrimitive` with number hint, as invoked by the relational operators:
primitives are themselves, arrays and objects go through `toString`. -/
def toPrim : JSValue → JSValue
  | .arr xs => .str (jsString (.arr xs))
  | .obj fields => .str (jsString (.obj fields))
  | v => v

/-- The abstract relational comparison `x < y` of JavaScript; `none` when a
NaN operand makes the comparison undefined. -/
def jsLtOpt (x y : JSValue) : Option Bool :=
  match toPrim x, toPrim y with
  | .str a, .str b => some (decide (a < b))
  | px, py =>
    match toNumber px, toNumber py with
    | some a, some b => some (decide (a < b))
    | _, _ => none

/-- JavaScript `x > y`. -/
def jsGtB (x y : JSValue) : Bool := jsLtOpt y x == some true

/-- JavaScript `x >= y` (holds iff `x < y` is defined and false). -/
def jsGeB (x y : JSValue) : Bool := jsLtOpt x y == some false

/-- JavaScript `x < y`. -/
def jsLtB (x y : JSValue) : Bool := jsLtOpt x y == some true

/-- JavaScript `x <= y` (holds iff `y < x` is defined and false). -/
def jsLeB (x y : JSValue) : Bool := jsLtOpt y x == some false

/-- `Array.prototype.includes` via strict equality (SameValueZero restricted
to the modelled values). -/
def jsIncludes (xs : List JSValue) (v : JSValue) : Bool :=
  xs.any (fun x => strictEq x v)

end Sencillo

namespace Sencillo

/-! ## The matcher (`src/query.ts` / `dist/query.js`)

`match(filter, callback)` compiles a filter object and an optional user
predicate into a document predicate.  The user predicate may return any
JavaScript value (checked for truthiness), and the `$regex` operator calls
into the host regular-expression engine, which the embedding takes as the
parameter `regexTest` (pattern value, subject string). -/

/-- One operator inside an operator-object: the `switch (operator)` body of
`match`.  `condition` is the entire operator-object, used by the `default`
branch. -/
def opHolds (regexTest : JSValue → String → Bool) (value : JSValue)
    (operator : String) (target : JSValue) (condition : JSValue) : Bool :=
  if operator = "$eq" then strictEq value target
  else if operator = "$ne" then !strictEq value target
  else if operator = "$gt" then jsGtB value target
  else if operator = "$gte" then jsGeB value target
  else if operator = "$lt" then jsLtB value target
  else if operator = "$lte" then jsLeB value target
  else if operator = "$in" then
    match target with
    | .arr xs => jsIncludes xs value
    | _ => false
  else if operator = "$nin" then
    match target with
    | .arr xs => !jsIncludes xs value
    | _ => false
  else if operator = "$regex" then
    match value with
    | .str s => regexTest target s
    | _ => false
  else jsonEq value condition

/-- The inner `for (const operator in condition)` loop: every operator of the
operator-object must hold (early return on the first failure). -/
def condLoop (regexTest : JSValue → String → Bool) (value : JSValue)
    (condition : JSValue) : List (String × JSValue) → Bool
  | [] => true
  | (operator, target) :: rest =>
    if opHolds regexTest value operator target condition then
      condLoop regexTest value condition rest
    else false

/-- The outer `for (const key in filter)` loop. -/
def filterLoop (regexTest : JSValue → String → Bool) (item : JSValue) :
    List (String × JSValue) → Bool
  | [] => true
  | (key, condition) :: rest =>
    let value := getField item key
    let clauseOk :=
      match condition with
      | .obj _ | .arr _ => condLoop regexTest value condition (enumPairs condition)
      | _ => strictEq value condition
    if clauseOk then filterLoop regexTest item rest else false

/-- The compiled predicate returned by `match(filter, callback)` of
`query.js`, applied to a document.  A filter object is an ordered list of
field clauses; `condition !== null` together with `typeof condition ===
"object"` selects the operator-object path exactly for objects and arrays. -/
def matchFn (regexTest : JSValue → String → Bool)
    (filter : List (String × JSValue)) (callback : Option (JSValue → JSValue))
    (item : JSValue) : Bool :=
  if filterLoop regexTest item filter then
    match callback with
    | some cb => toBool (cb item)
    | none => true
  else false

/-! Spec-side restatement of the matcher semantics (written from the words of
spec section 4.1, to be compared with `matchFn`). -/

/-- Spec table: semantics of a single supported operator; an unknown operator
key falls back to deep structural equality between the document value and the
entire operator-object, realized as equality of canonical JSON
serializations. -/
def specOpHolds (regexTest : JSValue → String → Bool) (value : JSValue)
    (operator : String) (target : JSValue) (condition : JSValue) : Bool :=
  match operator with
  | "$eq" => strictEq value target
  | "$ne" => !strictEq value target
  | "$gt" => jsGtB value target
  | "$gte" => jsGeB value target
  | "$lt" => jsLtB value target
  | "$lte" => jsLeB value target
  | "$in" => match target with | .arr xs => jsIncludes xs value | _ => false
  | "$nin" => match target with | .arr xs => !jsIncludes xs value | _ => false
  | "$regex" => match value with | .str s => regexTest target s | _ => false
  | _ => jsonEq value condition

/-- Spec section 4.1: a field clause holds when the clause is an
operator-object and all its operators hold, or when it is a literal and the
document field equals it with strict equality. -/
def specClauseHolds (regexTest : JSValue → String → Bool) (item : JSValue)
    (key : String) (condition : JSValue) : Bool :=
  match condition with
  | .obj _ | .arr _ =>
    (enumPairs condition).all fun p =>
      specOpHolds regexTest (getField item key) p.1 p.2 condition
  | _ => strictEq (getField item key) condition

/-- Spec section 4.1: a document matches iff every field clause matches and
the user predicate, if present, returns truthy. -/
def specMatch (regexTest : JSValue → String → Bool)
    (filter : List (String × JSValue)) (callback : Option (JSValue → JSValue))
    (item : JSValue) : Bool :=
  (filter.all fun p => specClauseHolds regexTest item p.1 p.2) &&
    (match callback with
     | some cb => toBool (cb item)
     | none => true)

end Sencillo

namespace Sencillo

/-! ## Engine state (`src/index.ts`, class `SencilloDB`)

The resident database, the LRU bookkeeping, the dirty set, the pending-op
buffer and the logical content of the storage tree are explicit state; every
method of the class becomes a state-passing function.  The custom
`loadHook`/`saveHook` pair and the `compression` flag are not modelled: the
hooks replace only the byte transport of single-file mode and compression
changes only the byte-level encoding, while the codec contract is that a
written file round-trips exactly, so neither affects the logical content.
`evictions` and `createCount` are observation-only fields written by
`#evict` and `create` and never read by any operation. -/

/-- `__stats` of a collection. -/
structure Stats where
  inserted : Int
  total : Int
deriving DecidableEq

/-- A collection object: `__stats`, optional `__id_map`, optional
`__secondary_indexes`, and the remaining keys, which are the partitions in
insertion order. -/
structure Collection where
  stats : Stats
  idMap : Option (List (Int × String))
  secIdx : Option (List (String × List (String × List Int)))
  parts : List (String × List JSValue)

abbrev Database := List (String × Collection)

/-- The `new` member of the `{current, new}` index form. -/
inductive NewIdx where
  | s : String → NewIdx
  | f : (JSValue → String) → NewIdx

/-- The `index` instruction: a string, a function of the document, or the
`{current, new}` object form. -/
inductive IndexArg where
  | str : String → IndexArg
  | fn : (JSValue → String) → IndexArg
  | objForm : Option String → Option NewIdx → IndexArg

/-- A populate rule. -/
structure PopRule where
  field : String
  collection : String
  targetField : Option String

/-- The `Instructions` record; absent members are `none`. -/
structure Instructions where
  collection : Option String
  index : Option IndexArg
  data : Option JSValue
  _id : Option Int
  callback : Option (JSValue → JSValue)
  filter : Option (List (String × JSValue))
  sort : Option (JSValue → JSValue → Int)
  populate : Option (List PopRule)
  field : Option String

/-- Instructions with every member absent. -/
def noInstr : Instructions :=
  { collection := none, index := none, data := none, _id := none,
    callback := none, filter := none, sort := none, populate := none,
    field := none }

/-- The error taxonomy of `errors.ts`, plus `typeError` for the TypeError
the runtime raises on a property access through `undefined`, and
`userThrow` for an exception raised by the transaction callback itself. -/
inductive DBError where
  | validation : String → DBError
  | collectionNotFound : String → DBError
  | indexNotFound : String → DBError
  | documentNotFound : Int → DBError
  | databaseNotLoaded : DBError
  | typeError : DBError
  | userThrow : DBError
deriving DecidableEq

/-- One line of the append-only file: a parsed `{op, instructions}` record,
or a line `JSON.parse` rejects. -/
inductive AofLine where
  | malformed : AofLine
  | record : String → Instructions → AofLine

/-- Logical content of the storage tree: the single-file document, the
per-collection files of folder mode, the `meta.json` and `shard_<p>.json`
files and collection directories of sharded mode, and the AOF file
(`none` when the file does not exist). -/
structure DiskState where
  base : Database
  colFiles : List (String × Collection)
  metaFiles : List (String × Collection)
  shardFiles : List ((String × String) × List JSValue)
  colDirs : List String
  aof : Option (List AofLine)

/-- Constructor configuration (§6).  `regexTest` is the host regular
expression engine used by the `$regex` operator: (pattern value, subject). -/
structure Config where
  folder : Bool
  sharding : Bool
  aof : Bool
  maxCacheSize : Nat
  regexTest : JSValue → String → Bool

/-- The private fields of a `SencilloDB` instance, plus the logical disk
and the two observation counters. -/
structure EngineState where
  db : Option Database
  lru : List String
  pendingOps : List (String × Instructions)
  dirty : List String
  disk : DiskState
  evictions : Nat
  createCount : List (String × Nat)

/-! Association-list operations for JavaScript objects and Maps with
string or numeric keys (keys are unique by construction). -/

def alook {κ α : Type} [DecidableEq κ] : List (κ × α) → κ → Option α
  | [], _ => none
  | (k, v) :: rest, key => if k = key then some v else alook rest key

def aset {κ α : Type} [DecidableEq κ] : List (κ × α) → κ → α → List (κ × α)
  | [], key, v => [(key, v)]
  | (k, w) :: rest, key, v =>
    if k = key then (k, v) :: rest else (k, w) :: aset rest key v

def aerase {κ α : Type} [DecidableEq κ] : List (κ × α) → κ → List (κ × α)
  | [], _ => []
  | (k, w) :: rest, key => if k = key then rest else (k, w) :: aerase rest key

/-- `Set.add` / ordered insertion keeping the first occurrence. -/
def pushNew (l : List String) (x : String) : List String :=
  if x ∈ l then l else l ++ [x]

/-- `this.#db`, after the not-loaded check every method performs. -/
def dbOf (st : EngineState) : Database :=
  st.db.getD []

/-- `this.#db[c]`. -/
def colOf (st : EngineState) (c : String) : Option Collection :=
  alook (dbOf st) c

/-- `this.#db[c] = col`. -/
def setCol (st : EngineState) (c : String) (col : Collection) : EngineState :=
  { st with db := some (aset (dbOf st) c col) }

/-- The fresh collection literal `{ __stats: { inserted: 0, total: 0 },
__id_map: {} }`. -/
def emptyCollection : Collection :=
  { stats := { inserted := 0, total := 0 }, idMap := some [], secIdx := none,
    parts := [] }

/-- The empty storage tree of a fresh store (the constructor writes `{}`
as the single-file document when the file does not exist). -/
def initDisk : DiskState :=
  { base := [], colFiles := [], metaFiles := [], shardFiles := [],
    colDirs := [], aof := none }

/-- A freshly constructed engine: nothing resident, nothing pending. -/
def initState : EngineState :=
  { db := none, lru := [], pendingOps := [], dirty := [], disk := initDisk,
    evictions := 0, createCount := [] }

/-- The default configuration: single-file mode, no AOF, no sharding,
`maxCacheSize` 0 (meaning no limit). -/
def defaultConfig (rt : JSValue → String → Bool) : Config :=
  { folder := false, sharding := false, aof := false, maxCacheSize := 0,
    regexTest := rt }

end Sencillo

namespace Sencillo

/-! ## Persistence and cache machinery (`#saveShard`, `#saveCollection`,
`#saveDB`, `#appendAOF`, `#evict`, `#touch`, `#getCollection`,
`#getShard`) -/

/-- `#saveShard(collection, index)`: write one partition to its shard file
(temp write + atomic rename collapse to one logical write). -/
def saveShard (cfg : Config) (collection index : String) (st : EngineState) :
    EngineState :=
  if !cfg.folder || !cfg.sharding then st
  else match st.db with
  | none => st
  | some db =>
    match alook db collection with
    | none => st
    | some col =>
      match alook col.parts index with
      | none => st
      | some docs =>
        { st with disk :=
          { st.disk with
            colDirs := pushNew st.disk.colDirs collection,
            shardFiles := aset st.disk.shardFiles (collection, index) docs } }

/-- `#saveCollection(name)`: sharded mode writes `meta.json` plus every
shard file; folder mode writes the single collection file. -/
def saveCollection (cfg : Config) (name : String) (st : EngineState) :
    EngineState :=
  if cfg.folder then
    match st.db with
    | none => st
    | some db =>
      match alook db name with
      | none => st
      | some col =>
        if cfg.sharding then
          let meta : Collection :=
            { stats := col.stats, idMap := col.idMap, secIdx := col.secIdx,
              parts := [] }
          let disk1 :=
            { st.disk with
              colDirs := pushNew st.disk.colDirs name,
              metaFiles := aset st.disk.metaFiles name meta }
          let disk2 := col.parts.foldl
            (fun d p => { d with shardFiles := aset d.shardFiles (name, p.1) p.2 })
            disk1
          { st with disk := disk2 }
        else
          { st with disk :=
            { st.disk with colFiles := aset st.disk.colFiles name col } }
  else st

/-- `#saveDB()`: folder mode saves every dirty collection and clears the
dirty set; single-file mode writes the whole database document. -/
def saveDB (cfg : Config) (st : EngineState) : EngineState :=
  match st.db with
  | none => st
  | some db =>
    if cfg.folder then
      let st1 := st.dirty.foldl (fun s c => saveCollection cfg c s) st
      { st1 with dirty := [] }
    else
      { st with disk := { st.disk with base := db } }

/-- `#appendAOF(ops)`: append one record per pending operation
(`appendFile` creates the file when absent). -/
def appendAOF (ops : List (String × Instructions)) (st : EngineState) :
    EngineState :=
  if ops.length = 0 then st
  else
    let lines := ops.map (fun o => AofLine.record o.1 o.2)
    { st with disk :=
      { st.disk with aof := some ((st.disk.aof.getD []) ++ lines) } }

/-- `"::"`-splitting of an LRU key (`key.split("::")`), implemented by
structural recursion over the characters. -/
def splitColons : List Char → List Char → List String
  | ':' :: ':' :: rest, cur => String.mk cur.reverse :: splitColons rest []
  | c :: rest, cur => splitColons rest (cur.cons c)
  | [], cur => [String.mk cur.reverse]

/-- `key.split("::")`. -/
def splitKey (key : String) : List String :=
  splitColons key.toList []

/-- `#evict()`: drop the least-recently-used key; a `collection::index` key
is a shard, anything else a whole collection; a unit of a dirty collection
is saved before being unloaded.  The `evictions` counter is an
observation-only increment. -/
def evict (cfg : Config) (st : EngineState) : EngineState :=
  match st.lru with
  | [] => st
  | key :: rest =>
    let st1 := { st with lru := rest, evictions := st.evictions + 1 }
    match splitKey key with
    | collection :: index :: _ =>
      let st2 := if collection ∈ st1.dirty then saveShard cfg collection index st1
                 else st1
      match st2.db with
      | none => st2
      | some db =>
        match alook db collection with
        | none => st2
        | some col =>
          match alook col.parts index with
          | none => st2
          | some _ =>
            { st2 with db := some (aset db collection
                { col with parts := aerase col.parts index }) }
    | _ =>
      let st2 := if key ∈ st1.dirty then saveCollection cfg key st1 else st1
      match st2.db with
      | none => st2
      | some db =>
        match alook db key with
        | none => st2
        | some _ => { st2 with db := some (aerase db key) }

/-- `#touch(key)`: inert when `maxCacheSize <= 0`; otherwise move the key to
the most-recent end and evict once when the bound is exceeded. -/
def touch (cfg : Config) (key : String) (st : EngineState) : EngineState :=
  if cfg.maxCacheSize = 0 then st
  else
    let lru1 := (st.lru.erase key) ++ [key]
    let st1 := { st with lru := lru1 }
    if lru1.length > cfg.maxCacheSize then evict cfg st1 else st1

/-- `#getCollection(name)`: initialize `#db` when unset, touch the LRU, and
lazily load the collection (its `meta.json` in sharded mode, its file in
folder mode) when not resident. -/
def getCollection (cfg : Config) (name : String) (st : EngineState) :
    EngineState :=
  let st0 := match st.db with
    | none => { st with db := some [] }
    | some _ => st
  let st1 := touch cfg name st0
  match st1.db with
  | none => st1
  | some db =>
    if (alook db name).isSome then st1
    else if cfg.folder then
      if cfg.sharding then
        if name ∈ st1.disk.colDirs then
          match alook st1.disk.metaFiles name with
          | some meta => { st1 with db := some (aset db name meta) }
          | none => st1
        else st1
      else
        match alook st1.disk.colFiles name with
        | some col => { st1 with db := some (aset db name col) }
        | none => st1
    else st1

/-- `#getShard(collection, index)`: no-op outside sharded folder mode or
when the collection is not resident; touch when the shard is already
loaded, otherwise read the shard file and touch. -/
def getShard (cfg : Config) (collection index : String) (st : EngineState) :
    EngineState :=
  if !cfg.sharding || !cfg.folder then st
  else match st.db with
  | none => st
  | some db =>
    match alook db collection with
    | none => st
    | some col =>
      if (alook col.parts index).isSome then
        touch cfg (collection ++ "::" ++ index) st
      else
        match alook st.disk.shardFiles (collection, index) with
        | some docs =>
          let st1 := { st with db := some (aset db collection
              { col with parts := aset col.parts index docs }) }
          touch cfg (collection ++ "::" ++ index) st1
        | none => st

end Sencillo

namespace Sencillo

/-! ## Operations -/

/-- Secondary-index maintenance step of `create` (and the add half of
`update`): when the value is defined, push the id under its
stringification, creating the bucket when absent. -/
def secAddId (m : List (String × List Int)) (value : JSValue) (id : Int) :
    List (String × List Int) :=
  match value with
  | .undef => m
  | v =>
    let sv := jsString v
    aset m sv ((alook m sv).getD [] ++ [id])

/-- Removal half used by `update`, `destroy` and `dropIndex`: when the value
is defined and its bucket exists, splice out the first occurrence of the
id (`indexOf` + `splice`). -/
def secRemoveId (m : List (String × List Int)) (value : JSValue) (id : Int) :
    List (String × List Int) :=
  match value with
  | .undef => m
  | v =>
    let sv := jsString v
    match alook m sv with
    | none => m
    | some arr => aset m sv (arr.erase id)

/-- Observation only: count one successful `create` against a collection. -/
def bumpCreate (st : EngineState) (collection : String) : EngineState :=
  let n := (alook st.createCount collection).getD 0 + 1
  { st with createCount := aset st.createCount collection n }

/-- `create(instructions)` (source lines 562-625).  Accesses through a
possibly-evicted collection or partition surface as `typeError`, exactly
where the runtime would raise one. -/
def create (cfg : Config) (instr : Instructions) (st : EngineState) :
    Except DBError JSValue × EngineState :=
  let collection := instr.collection.getD "default"
  let index := instr.index.getD (IndexArg.str "default")
  let data := instr.data.getD (JSValue.bool false)
  if !toBool data then
    (.error (.validation "CREATE ERROR: no data given"), st)
  else if st.db.isNone then (.error .databaseNotLoaded, st)
  else
    let st := getCollection cfg collection st
    let st := if cfg.folder then { st with dirty := pushNew st.dirty collection }
              else st
    let st := if (colOf st collection).isNone then
                setCol st collection emptyCollection
              else st
    -- Resolve index to string (the object form falls back to "default")
    let idx := match index with
      | .fn f => f data
      | .str s => s
      | .objForm _ _ => "default"
    match colOf st collection with
    | none => (.error .typeError, st)
    | some col =>
      let _id := col.stats.inserted + 1
      let col := { col with stats :=
        { inserted := col.stats.inserted + 1, total := col.stats.total + 1 } }
      let st := setCol st collection col
      let st := if cfg.sharding then getShard cfg collection idx st else st
      match colOf st collection with
      | none => (.error .typeError, st)
      | some col =>
        let st :=
          if (alook col.parts idx).isNone then
            let st := setCol st collection
              { col with parts := aset col.parts idx [] }
            if cfg.sharding then touch cfg (collection ++ "::" ++ idx) st
            else st
          else st
        let newItem := spreadWithId data _id
        match colOf st collection with
        | none => (.error .typeError, st)
        | some col =>
          match alook col.parts idx with
          | none => (.error .typeError, st)
          | some docs =>
            let col := { col with parts := aset col.parts idx (docs ++ [newItem]) }
            -- Maintain secondary indexes
            let col := match col.secIdx with
              | some sis =>
                let sis2 := sis.map (fun (p : String × List (String × List Int)) => (p.1, secAddId p.2 (getField newItem p.1) _id))
                { col with secIdx := some sis2 }
              | none => col
            -- Maintain ID Map
            let col := match col.idMap with
              | none => { col with idMap := some [] }
              | some _ => col
            let col := { col with idMap := some (aset (col.idMap.getD []) _id idx) }
            let st := setCol st collection col
            (.ok newItem, bumpCreate st collection)

/-- The `for (const item of data)` loop of `createMany`, invoking `create`
per item and aborting on the first failure. -/
def createLoop (cfg : Config) (collection : String) (index : Option IndexArg) :
    List JSValue → EngineState → List JSValue →
    Except DBError (List JSValue) × EngineState
  | [], st, acc => (.ok acc.reverse, st)
  | item :: rest, st, acc =>
    match create cfg { noInstr with collection := some collection, data := some item, index := index } st with
    | (.ok doc, st) => createLoop cfg collection index rest st (doc :: acc)
    | (.error e, st) => (.error e, st)

/-- `createMany(instructions)` (source lines 977-989).  `for…of` iterates
arrays element-wise and strings character-wise; every other value is not
iterable and raises a TypeError. -/
def createMany (cfg : Config) (instr : Instructions) (st : EngineState) :
    Except DBError (List JSValue) × EngineState :=
  let collection := instr.collection.getD "default"
  if st.db.isNone then (.error .databaseNotLoaded, st)
  else
    let st := getCollection cfg collection st
    let st := if cfg.folder then { st with dirty := pushNew st.dirty collection }
              else st
    match instr.data with
    | some (.arr items) => createLoop cfg collection instr.index items st []
    | some (.str s) =>
      createLoop cfg collection instr.index
        (s.toList.map (fun c => JSValue.str (String.mk [c]))) st []
    | _ => (.error .typeError, st)

end Sencillo

namespace Sencillo

/-- Scan branch of `#populate`: walk the partitions in key order and return
the first member whose `targetField` strictly equals the value. -/
def popScan (parts : List (String × List JSValue)) (targetField : String)
    (value : JSValue) : Option JSValue :=
  match parts with
  | [] => none
  | (_, docs) :: rest =>
    match docs.find? (fun i => strictEq (getField i targetField) value) with
    | some found => some found
    | none => popScan rest targetField value

/-- The `readdir` discovery loop of sharded scans: load every
`shard_<p>.json` of the collection directory (listing taken before the
loads, as in the source). -/
def loadAllShards (cfg : Config) (collection : String) (st : EngineState) :
    EngineState :=
  if collection ∈ st.disk.colDirs then
    (st.disk.shardFiles.filterMap
      (fun e => if e.1.1 = collection then some e.1.2 else none)).foldl
      (fun s i => getShard cfg collection i s) st
  else st

/-- `populatedItem[field] = relatedDoc`; assignment to a non-object is
silently ignored. -/
def setFieldJS (v : JSValue) (field : String) (w : JSValue) : JSValue :=
  match v with
  | .obj fields => .obj (objSet fields field w)
  | other => other

/-- The `for (const rule of rules)` loop of `#populate` (source lines
495-560); property reads through an evicted collection raise `typeError`. -/
def populateRules (cfg : Config) :
    List PopRule → JSValue → EngineState →
    Except DBError JSValue × EngineState
  | [], pItem, st => (.ok pItem, st)
  | rule :: rest, pItem, st =>
    let targetField := rule.targetField.getD "_id"
    let value := getField pItem rule.field
    if toBool value then
      let st := getCollection cfg rule.collection st
      match colOf st rule.collection with
      | none => populateRules cfg rest pItem st
      | some col =>
        if targetField = "_id" then
          match value with
          | .num v =>
            -- ID Map optimization
            match col.idMap with
            | none => populateRules cfg rest pItem st
            | some im =>
              match alook im v with
              | none => populateRules cfg rest pItem st
              | some idx =>
                if idx = "" then populateRules cfg rest pItem st
                else
                  let st := if cfg.sharding then getShard cfg rule.collection idx st
                            else st
                  match colOf st rule.collection with
                  | none => (.error .typeError, st)
                  | some col2 =>
                    match alook col2.parts idx with
                    | none => populateRules cfg rest pItem st
                    | some docs =>
                      match docs.find?
                          (fun d => strictEq (getField d "_id") (.num v)) with
                      | some found =>
                        populateRules cfg rest (setFieldJS pItem rule.field found) st
                      | none => populateRules cfg rest pItem st
          | _ =>
            -- Scan (loading every shard first in sharded mode)
            let st := if cfg.sharding then loadAllShards cfg rule.collection st
                      else st
            match colOf st rule.collection with
            | none => (.error .typeError, st)
            | some col2 =>
              match popScan col2.parts targetField value with
              | some found =>
                populateRules cfg rest (setFieldJS pItem rule.field found) st
              | none => populateRules cfg rest pItem st
        else
          let st := if cfg.sharding then loadAllShards cfg rule.collection st
                    else st
          match colOf st rule.collection with
          | none => (.error .typeError, st)
          | some col2 =>
            match popScan col2.parts targetField value with
            | some found =>
              populateRules cfg rest (setFieldJS pItem rule.field found) st
            | none => populateRules cfg rest pItem st
    else populateRules cfg rest pItem st

/-- `#populate(item, rules)`: shallow-copy the item, then apply each rule. -/
def populateItem (cfg : Config) (rules : List PopRule) (item : JSValue)
    (st : EngineState) : Except DBError JSValue × EngineState :=
  if !toBool item then (.ok item, st)
  else populateRules cfg rules (.obj (enumPairs item)) st

/-- The optimized secondary-index probe of `findMany` (and structurally of
`find`): the first filter field whose clause is a literal or `{$eq: v}` and
whose stringified target has a bucket wins, yielding its id list. -/
def fmOptLoop (sec : List (String × List (String × List Int))) :
    List (String × JSValue) → Option (List Int)
  | [] => none
  | (field, clause) :: rest =>
    let direct : Option JSValue :=
      match clause with
      | .obj fields => alook fields "$eq"
      | .arr _ => none
      | v => some v
    match direct with
    | none => fmOptLoop sec rest
    | some target =>
      match alook sec field with
      | none => fmOptLoop sec rest
      | some m =>
        match alook m (jsString target) with
        | none => fmOptLoop sec rest
        | some ids => some ids

/-- The id-retrieval loop of the optimized path: fetch each id through the
ID Map (loading its shard in sharded mode), re-checking the full matcher. -/
def fmCollectIds (cfg : Config) (collection : String)
    (matcher : JSValue → Bool) :
    List Int → EngineState → List JSValue →
    Except DBError (List JSValue) × EngineState
  | [], st, acc => (.ok acc, st)
  | id :: rest, st, acc =>
    match colOf st collection with
    | none => (.error .typeError, st)
    | some col =>
      match col.idMap with
      | none => fmCollectIds cfg collection matcher rest st acc
      | some im =>
        match alook im id with
        | none => fmCollectIds cfg collection matcher rest st acc
        | some idx =>
          if idx = "" then fmCollectIds cfg collection matcher rest st acc
          else
            let st := if cfg.sharding then getShard cfg collection idx st else st
            match colOf st collection with
            | none => (.error .typeError, st)
            | some col2 =>
              match alook col2.parts idx with
              | none => fmCollectIds cfg collection matcher rest st acc
              | some docs =>
                match docs.find?
                    (fun d => strictEq (getField d "_id") (.num id)) with
                | some doc =>
                  if matcher doc then
                    fmCollectIds cfg collection matcher rest st (acc ++ [doc])
                  else fmCollectIds cfg collection matcher rest st acc
                | none => fmCollectIds cfg collection matcher rest st acc

/-- Full scan: in sharded mode first discover and load every shard, then
filter every partition in key order. -/
def fmScanAll (cfg : Config) (collection : String) (matcher : JSValue → Bool)
    (st : EngineState) : Except DBError (List JSValue) × EngineState :=
  let st := if cfg.sharding then loadAllShards cfg collection st else st
  match colOf st collection with
  | none => (.error .typeError, st)
  | some col =>
    (.ok (col.parts.foldl (fun acc p => acc ++ p.2.filter matcher) []), st)

/-- `a._id` coerced to a number, as used by the default sort comparator. -/
def idNum (d : JSValue) : Int :=
  (toNumber (getField d "_id")).getD 0

/-- Stable insertion into a sorted list: the new element goes after every
element it does not strictly precede. -/
def stInsert {α : Type} (le : α → α → Bool) (x : α) : List α → List α
  | [] => [x]
  | y :: ys => if le y x then y :: stInsert le x ys else x :: y :: ys

/-- A stable sort by a boolean `le`, processing elements left to right; the
host `Array.prototype.sort` is stable, and for a comparator inducing a total
preorder every stable sort produces this order. -/
def stableSort {α : Type} (le : α → α → Bool) (l : List α) : List α :=
  l.foldl (fun acc x => stInsert le x acc) []

/-- `results.sort(sort)` or the default ascending-`_id` comparator
`(a, b) => a._id - b._id`. -/
def sortResults (sort : Option (JSValue → JSValue → Int))
    (results : List JSValue) : List JSValue :=
  match sort with
  | some cmp => stableSort (fun a b => cmp a b ≤ 0) results
  | none => stableSort (fun a b => idNum a ≤ idNum b) results

/-- The sequential populate loop at the end of `findMany`. -/
def populateResults (cfg : Config) (rules : List PopRule) :
    List JSValue → EngineState → List JSValue →
    Except DBError (List JSValue) × EngineState
  | [], st, acc => (.ok acc.reverse, st)
  | doc :: rest, st, acc =>
    match populateItem cfg rules doc st with
    | (.ok d, st) => populateResults cfg rules rest st (d :: acc)
    | (.error e, st) => (.error e, st)

/-- The result-gathering step of `findMany`: the optimized secondary-index
path when a filter field has a usable bucket, otherwise the
index-restricted or full scan. -/
def fmScan (cfg : Config) (i : Instructions) (collection : String)
    (matcher : JSValue → Bool) (col : Collection) (st : EngineState) :
    Except DBError (List JSValue) × EngineState :=
  let optIds : Option (List Int) :=
    match i.filter, col.secIdx with
    | some f, some sec => fmOptLoop sec f
    | _, _ => none
  match optIds with
  | some ids => fmCollectIds cfg collection matcher ids st []
  | none =>
    match i.index with
    | some (.str s) =>
      if s = "" then fmScanAll cfg collection matcher st
      else
        let st := if cfg.sharding then getShard cfg collection s st else st
        match colOf st collection with
        | none => (.error .typeError, st)
        | some col2 =>
          match alook col2.parts s with
          | none => (.error (.indexNotFound s), st)
          | some docs => (.ok (docs.filter matcher), st)
    | _ => fmScanAll cfg collection matcher st

/-- `findMany(instructions)` (source lines 881-975). -/
def findMany (cfg : Config) (instr : Instructions) (st : EngineState) :
    Except DBError (List JSValue) × EngineState :=
  let collection := instr.collection.getD "default"
  if st.db.isNone then (.error .databaseNotLoaded, st)
  else
    let st := getCollection cfg collection st
    match colOf st collection with
    | none => (.error (.collectionNotFound collection), st)
    | some col =>
      let matcher := matchFn cfg.regexTest (instr.filter.getD []) instr.callback
      match fmScan cfg instr collection matcher col st with
      | (.error e, st) => (.error e, st)
      | (.ok results, st) =>
        let results := sortResults instr.sort results
        match instr.populate with
        | some rules => populateResults cfg rules results st []
        | none => (.ok results, st)

end Sencillo

namespace Sencillo

/-- The shared locate step of `update`/`destroy`: ID Map hit when the entry
exists and is truthy, otherwise a scan over the partition keys; throws
`DocumentNotFound` when nothing contains the id. -/
def locatePartition (col : Collection) (_id : Int) : Except DBError String :=
  let hit : Option String :=
    match col.idMap with
    | some im =>
      match alook im _id with
      | some p => if p = "" then none else some p
      | none => none
    | none => none
  match hit with
  | some p => .ok p
  | none =>
    match col.parts.find? (fun p =>
        (p.2.find? (fun item => strictEq (getField item "_id") (.num _id))).isSome) with
    | some p => .ok p.1
    | none => .error (.documentNotFound _id)

/-- The new partition name computed by `update` when an index argument is
given: the object form's truthy `new` member wins, a string or function
argument resets the partition, anything else keeps the current one. -/
def resolveNewIdx (index : IndexArg) (idx : String) (newItem : JSValue) :
    String :=
  match index with
  | .objForm _ (some (.s s)) => if s = "" then idx else s
  | .objForm _ (some (.f f)) => f newItem
  | .objForm _ none => idx
  | .str s => s
  | .fn f => f newItem

/-- The secondary-index fixup of `update`: for every indexed field whose
value changed (strict inequality), remove the id under the old stringified
value and add it under the new one. -/
def updateSecIdx (sis : List (String × List (String × List Int)))
    (oldItem newItem : JSValue) (_id : Int) :
    List (String × List (String × List Int)) :=
  sis.map (fun (p : String × List (String × List Int)) =>
    let oldValue := getField oldItem p.1
    let newValue := getField newItem p.1
    if strictEq oldValue newValue then p
    else
      let m1 := secRemoveId p.2 oldValue _id
      (p.1, secAddId m1 newValue _id))

/-- The index-change block of `update` (source lines 669-697): when an
index argument is active and resolves to a different partition, move the
document (loading the destination shard in sharded mode) and repoint the ID
map; otherwise replace it in place.  Returns the state and the partition
now holding the document. -/
def updateMove (cfg : Config) (collection idx : String) (itemIndex : Nat)
    (docs : List JSValue) (newItem : JSValue) (index : Option IndexArg)
    (col : Collection) (_id : Int) (st : EngineState) :
    Except DBError (EngineState × String) :=
  let indexActive :=
    match index with
    | none => false
    | some (.str s) => s ≠ ""
    | some _ => true
  if indexActive then
    let newIdx := resolveNewIdx (index.getD (.str "")) idx newItem
    if newIdx ≠ idx then
      -- Remove from old
      let st := setCol st collection
        { col with parts := aset col.parts idx (docs.eraseIdx itemIndex) }
      -- Add to new (loading the shard first in sharded mode)
      let st := if cfg.sharding then getShard cfg collection newIdx st else st
      match colOf st collection with
      | none => .error .typeError
      | some col2 =>
        let st :=
          if (alook col2.parts newIdx).isNone then
            let st := setCol st collection
              { col2 with parts := aset col2.parts newIdx [] }
            if cfg.sharding then
              touch cfg (collection ++ "::" ++ newIdx) st
            else st
          else st
        match colOf st collection with
        | none => .error .typeError
        | some col3 =>
          match alook col3.parts newIdx with
          | none => .error .typeError
          | some arrNew =>
            let parts4 := aset col3.parts newIdx (arrNew ++ [newItem])
            let col4 := { col3 with parts := parts4 }
            -- Update ID Map
            let col4 := match col4.idMap with
              | some im => { col4 with idMap := some (aset im _id newIdx) }
              | none => col4
            .ok (setCol st collection col4, newIdx)
    else
      .ok (setCol st collection
        { col with parts := aset col.parts idx (docs.set itemIndex newItem) }, idx)
  else
    .ok (setCol st collection
      { col with parts := aset col.parts idx (docs.set itemIndex newItem) }, idx)

/-- `update(instructions)` (source lines 627-728). -/
def update (cfg : Config) (instr : Instructions) (st : EngineState) :
    Except DBError JSValue × EngineState :=
  let collection := instr.collection.getD "default"
  if st.db.isNone then (.error .databaseNotLoaded, st)
  else match instr._id with
  | none => (.error (.validation "UPDATE ERROR: no _id given"), st)
  | some _id =>
    let st := getCollection cfg collection st
    let st := if cfg.folder then { st with dirty := pushNew st.dirty collection }
              else st
    match colOf st collection with
    | none => (.error (.collectionNotFound collection), st)
    | some col =>
      match locatePartition col _id with
      | .error e => (.error e, st)
      | .ok idx =>
        -- `this.#db[collection][idx].findIndex(...)`: an absent partition is
        -- `undefined` and the method call raises a TypeError
        match alook col.parts idx with
        | none => (.error .typeError, st)
        | some docs =>
          match docs.findIdx? (fun item => strictEq (getField item "_id") (.num _id)) with
          | none => (.error (.documentNotFound _id), st)
          | some itemIndex =>
            let oldItem := (docs.get? itemIndex).getD .undef
            let newItem := spreadWithId (instr.data.getD .undef) _id
            match updateMove cfg collection idx itemIndex docs newItem
                instr.index col _id st with
            | .error e => (.error e, st)
            | .ok (st, _) =>
              -- Update secondary indexes
              match colOf st collection with
              | none => (.error .typeError, st)
              | some colF =>
                match colF.secIdx with
                | some sis =>
                  let st := setCol st collection
                    { colF with secIdx := some (updateSecIdx sis oldItem newItem _id) }
                  (.ok newItem, st)
                | none => (.ok newItem, st)

/-- `destroy(instructions)` (source lines 730-792). -/
def destroy (cfg : Config) (instr : Instructions) (st : EngineState) :
    Except DBError JSValue × EngineState :=
  let collection := instr.collection.getD "default"
  if st.db.isNone then (.error .databaseNotLoaded, st)
  else match instr._id with
  | none => (.error (.validation "DESTROY ERROR: no _id given"), st)
  | some _id =>
    let st := getCollection cfg collection st
    let st := if cfg.folder then { st with dirty := pushNew st.dirty collection }
              else st
    match colOf st collection with
    | none => (.error (.collectionNotFound collection), st)
    | some col =>
      match locatePartition col _id with
      | .error e => (.error e, st)
      | .ok idx =>
        match alook col.parts idx with
        | none => (.error .typeError, st)
        | some docs =>
          match docs.findIdx? (fun item => strictEq (getField item "_id") (.num _id)) with
          | none => (.error (.documentNotFound _id), st)
          | some itemIndex =>
            let deletedItem := (docs.get? itemIndex).getD .undef
            let col := { col with
              parts := aset col.parts idx (docs.eraseIdx itemIndex),
              stats := { col.stats with total := col.stats.total - 1 } }
            -- Remove from ID Map
            let col := match col.idMap with
              | some im => { col with idMap := some (aerase im _id) }
              | none => col
            -- Remove from secondary indexes
            let col := match col.secIdx with
              | some sis =>
                let sis2 := sis.map (fun (p : String × List (String × List Int)) =>
                  (p.1, secRemoveId p.2 (getField deletedItem p.1) _id))
                { col with secIdx := some sis2 }
              | none => col
            (.ok deletedItem, setCol st collection col)

end Sencillo

namespace Sencillo

/-- `dropCollection(instructions)` (source lines 991-1015): remove the
collection from memory and delete its file (folder mode) or its directory
with `meta.json` and all shards (sharded mode); it is removed from the
dirty set but not from the LRU. -/
def dropCollection (cfg : Config) (instr : Instructions) (st : EngineState) :
    Except DBError Unit × EngineState :=
  let collection := instr.collection.getD "default"
  if st.db.isNone then (.error .databaseNotLoaded, st)
  else
    let st := getCollection cfg collection st
    match colOf st collection with
    | none => (.error (.collectionNotFound collection), st)
    | some _ =>
      let st := { st with db := some (aerase (dbOf st) collection) }
      if cfg.folder then
        let st := { st with dirty := st.dirty.filter (· ≠ collection) }
        if cfg.sharding then
          if collection ∈ st.disk.colDirs then
            (.ok (), { st with disk :=
              { st.disk with
                colDirs := st.disk.colDirs.filter (· ≠ collection),
                metaFiles := aerase st.disk.metaFiles collection,
                shardFiles := st.disk.shardFiles.filter
                  (fun e => e.1.1 ≠ collection) } })
          else (.ok (), st)
        else
          (.ok (), { st with disk :=
            { st.disk with colFiles := aerase st.disk.colFiles collection } })
      else (.ok (), st)

/-- The property key JavaScript derives from a non-string `index` argument
(`this.#db[collection][index]` coerces the key through `String`); the
function case would use the function source text and is never exercised. -/
def indexKeyString : Option IndexArg → String
  | some (.str s) => s
  | none => "undefined"
  | some (.fn _) => "function"
  | some (.objForm _ _) => "[object Object]"

/-- `dropIndex(instructions)` (source lines 1017-1058). -/
def dropIndex (cfg : Config) (instr : Instructions) (st : EngineState) :
    Except DBError Unit × EngineState :=
  let collection := instr.collection.getD "default"
  let idxKey := indexKeyString instr.index
  if st.db.isNone then (.error .databaseNotLoaded, st)
  else
    let st := getCollection cfg collection st
    let st := if cfg.folder then { st with dirty := pushNew st.dirty collection }
              else st
    match colOf st collection with
    | none => (.error (.collectionNotFound collection), st)
    | some _ =>
      let st := if cfg.sharding then getShard cfg collection idxKey st else st
      match colOf st collection with
      | none => (.error .typeError, st)
      | some col =>
        match alook col.parts idxKey with
        | none => (.error (.indexNotFound idxKey), st)
        | some items =>
          let col := { col with
            parts := aerase col.parts idxKey,
            stats := { col.stats with
              total := col.stats.total - items.length } }
          -- Clean up ID Map
          let col := match col.idMap with
            | some im =>
              let im2 := items.foldl (fun m item =>
                match getField item "_id" with
                | .num n => aerase m n
                | _ => m) im
              { col with idMap := some im2 }
            | none => col
          -- Clean up secondary indexes
          let col := match col.secIdx with
            | some sis =>
              let sis2 := items.foldl (fun s item =>
                s.map (fun (p : String × List (String × List Int)) =>
                  match getField item "_id" with
                  | .num n => (p.1, secRemoveId p.2 (getField item p.1) n)
                  | _ => p)) sis
              { col with secIdx := some sis2 }
            | none => col
          (.ok (), setCol st collection col)

/-- The body of `rewriteCollection` once the collection is known to exist:
collect all live documents, replace the collection with a fresh shell and
re-insert everything through `createMany` (source lines 1066-1082). -/
def rwBody (cfg : Config) (instr : Instructions) (collection : String)
    (st : EngineState) : Except DBError Unit × EngineState :=
  match findMany cfg { noInstr with collection := some collection, callback := some (fun _ => .bool true), sort := instr.sort } st with
  | (.error e, st) => (.error e, st)
  | (.ok items, st) =>
    let st := setCol st collection emptyCollection
    match createMany cfg { noInstr with data := some (.arr items), index := instr.index, collection := some collection } st with
    | (.error e, st) => (.error e, st)
    | (.ok _, st) => (.ok (), st)

/-- `rewriteCollection(instructions)` (source lines 1060-1084): collect all
live documents, replace the collection with a fresh stats/ID-map shell, and
re-insert everything through `createMany`. -/
def rewriteCollection (cfg : Config) (instr : Instructions) (st : EngineState) :
    Except DBError Unit × EngineState :=
  let collection := instr.collection.getD "default"
  if st.db.isNone then (.error .databaseNotLoaded, st)
  else
    let st := getCollection cfg collection st
    let st := if cfg.folder then { st with dirty := pushNew st.dirty collection }
              else st
    match colOf st collection with
    | none => (.error (.collectionNotFound collection), st)
    | some _ => rwBody cfg instr collection st

/-- The population phase of `ensureIndex` (source lines 1100-1114): register
the empty index under its field name, fetch every live document through
`findMany`, and fold the documents into the new index map. -/
def ensurePopulate (cfg : Config) (collection field : String) (col : Collection)
    (st : EngineState) : Except DBError Unit × EngineState :=
  let c1 := { col with secIdx := some (aset (col.secIdx.getD []) field []) }
  let st := setCol st collection c1
  match findMany cfg { noInstr with collection := some collection, callback := some (fun _ => .bool true) } st with
  | (.error e, st) => (.error e, st)
  | (.ok items, st) =>
    match colOf st collection with
    | none => (.error .typeError, st)
    | some col2 =>
      match col2.secIdx with
      | none => (.error .typeError, st)
      | some sis =>
        let m0 := (alook sis field).getD []
        let m1 := items.foldl (fun m item =>
          match getField item field, getField item "_id" with
          | .undef, _ => m
          | v, .num n => aset m (jsString v) ((alook m (jsString v)).getD [] ++ [n])
          | _, _ => m) m0
        let st := setCol st collection
          { col2 with secIdx := some (aset sis field m1) }
        (.ok (), st)

/-- The body of `ensureIndex` after the collection shell is in place
(source lines 1094-1114): install the `secIdx` table when missing, then
populate the requested field index unless it already exists. -/
def ensureBody (cfg : Config) (collection field : String) (st : EngineState) :
    Except DBError Unit × EngineState :=
  match colOf st collection with
  | none => (.error .typeError, st)
  | some col0 =>
    let col := if col0.secIdx.isNone then { col0 with secIdx := some [] }
               else col0
    let st := if col0.secIdx.isNone then setCol st collection col else st
    match alook (col.secIdx.getD []) field with
    | some _ => (.ok (), st)
    | none => ensurePopulate cfg collection field col st

/-- `ensureIndex(instructions)` (source lines 1086-1116): create the
secondary-index skeleton when absent and populate it from every existing
document (ids are numeric for every engine-written document). -/
def ensureIndex (cfg : Config) (instr : Instructions) (st : EngineState) :
    Except DBError Unit × EngineState :=
  let collection := instr.collection.getD "undefined"
  let field := instr.field.getD "undefined"
  if st.db.isNone then (.error .databaseNotLoaded, st)
  else
    let st := getCollection cfg collection st
    let st := if cfg.folder then { st with dirty := pushNew st.dirty collection }
              else st
    let st := if (colOf st collection).isNone then
                setCol st collection emptyCollection
              else st
    ensureBody cfg collection field st

end Sencillo

namespace Sencillo

/-! ## Transaction controller and AOF replay -/

/-- One step of a transaction callback: an engine operation invoked on the
`tx` handle, or `fail`, the callback raising an exception of its own. -/
inductive TxOp where
  | create : Instructions → TxOp
  | update : Instructions → TxOp
  | destroy : Instructions → TxOp
  | findMany : Instructions → TxOp
  | createMany : Instructions → TxOp
  | dropCollection : Instructions → TxOp
  | dropIndex : Instructions → TxOp
  | rewriteCollection : Instructions → TxOp
  | ensureIndex : Instructions → TxOp
  | fail : TxOp

/-- The operations `transaction` wraps with AOF logging (`find`/`findMany`
are bound unwrapped). -/
def TxOp.isMutating : TxOp → Bool
  | .findMany _ => false
  | .fail => false
  | _ => true

/-- The `op` name recorded in a pending-operation entry. -/
def TxOp.opName : TxOp → String
  | .create _ => "create"
  | .update _ => "update"
  | .destroy _ => "destroy"
  | .findMany _ => "findMany"
  | .createMany _ => "createMany"
  | .dropCollection _ => "dropCollection"
  | .dropIndex _ => "dropIndex"
  | .rewriteCollection _ => "rewriteCollection"
  | .ensureIndex _ => "ensureIndex"
  | .fail => "fail"

/-- The instructions carried by a step. -/
def TxOp.instr : TxOp → Instructions
  | .create i => i
  | .update i => i
  | .destroy i => i
  | .findMany i => i
  | .createMany i => i
  | .dropCollection i => i
  | .dropIndex i => i
  | .rewriteCollection i => i
  | .ensureIndex i => i
  | .fail => noInstr

/-- Run one operation, discarding its payload. -/
def runOp (cfg : Config) (op : TxOp) (st : EngineState) :
    Except DBError Unit × EngineState :=
  match op with
  | .create i => let (r, st) := create cfg i st; (r.map (fun _ => ()), st)
  | .update i => let (r, st) := update cfg i st; (r.map (fun _ => ()), st)
  | .destroy i => let (r, st) := destroy cfg i st; (r.map (fun _ => ()), st)
  | .findMany i => let (r, st) := findMany cfg i st; (r.map (fun _ => ()), st)
  | .createMany i => let (r, st) := createMany cfg i st; (r.map (fun _ => ()), st)
  | .dropCollection i => dropCollection cfg i st
  | .dropIndex i => dropIndex cfg i st
  | .rewriteCollection i => rewriteCollection cfg i st
  | .ensureIndex i => ensureIndex cfg i st
  | .fail => (.error .userThrow, st)

/-- The callback body as run by `transaction`: each wrapped operation first
pushes its pending-operation record (when AOF is enabled) and then executes;
the first exception aborts the remainder. -/
def runTxBody (cfg : Config) : List TxOp → EngineState →
    Except DBError Unit × EngineState
  | [], st => (.ok (), st)
  | op :: rest, st =>
    let st := if cfg.aof && op.isMutating then
        { st with pendingOps := st.pendingOps ++ [(op.opName, op.instr)] }
      else st
    match runOp cfg op st with
    | (.ok _, st) => runTxBody cfg rest st
    | (.error e, st) => (.error e, st)

/-- AOF replay dispatch `this[op](instructions)`: the engine only ever
writes the eight wrapped operation names; any other string denotes a
property that is not a function and raises a TypeError (which replay then
swallows). -/
def replayDispatch (cfg : Config) (op : String) (instr : Instructions)
    (st : EngineState) : Except DBError Unit × EngineState :=
  if op = "create" then runOp cfg (.create instr) st
  else if op = "update" then runOp cfg (.update instr) st
  else if op = "destroy" then runOp cfg (.destroy instr) st
  else if op = "createMany" then runOp cfg (.createMany instr) st
  else if op = "dropCollection" then runOp cfg (.dropCollection instr) st
  else if op = "dropIndex" then runOp cfg (.dropIndex instr) st
  else if op = "rewriteCollection" then runOp cfg (.rewriteCollection instr) st
  else if op = "ensureIndex" then runOp cfg (.ensureIndex instr) st
  else if op = "findMany" then runOp cfg (.findMany instr) st
  else (.error .typeError, st)

/-- The replay loop of `#loadDB`: lines `JSON.parse` rejects and lines whose
replay throws are logged and skipped; replay never appends to the AOF
(the raw methods are invoked, not the logging wrappers). -/
def replayLines (cfg : Config) : List AofLine → EngineState → EngineState
  | [], st => st
  | .malformed :: rest, st => replayLines cfg rest st
  | .record op instr :: rest, st =>
    replayLines cfg rest (replayDispatch cfg op instr st).2

/-- `#loadDB()` (source lines 128-165): a no-op in folder mode; otherwise
load the base document and, when AOF is enabled and the file exists, replay
it line by line and clear the pending-operation buffer. -/
def loadDB (cfg : Config) (st : EngineState) : EngineState :=
  if cfg.folder then st
  else
    let st := { st with db := some st.disk.base }
    if cfg.aof then
      match st.disk.aof with
      | some lines =>
        let st := replayLines cfg lines st
        { st with pendingOps := [] }
      | none => st
    else st

/-- The run-and-settle phase of `transaction` (source lines 449-491): run the
body; on success append the AOF (or save), on failure reload from disk
(single-file) or drop the dirty collections from the store (folder). -/
def txFinish (cfg : Config) (prog : List TxOp) (st : EngineState) :
    Except DBError Unit × EngineState :=
  match runTxBody cfg prog st with
  | (.ok _, st) =>
    let st := if cfg.aof then appendAOF st.pendingOps st else saveDB cfg st
    (.ok (), { st with pendingOps := [] })
  | (.error e, st) =>
    let st := if cfg.folder then st else loadDB cfg st
    let st :=
      if cfg.folder && st.db.isSome then
        let db2 := st.dirty.foldl (fun d c => aerase d c) (dbOf st)
        { st with db := some db2, dirty := [] }
      else st
    (.error e, st)

/-- `transaction(callback)` (source lines 436-493) for a callback that is a
sequence of operations: lazily initialize the store, reset the pending-op
buffer, then run and settle the body. -/
def transaction (cfg : Config) (prog : List TxOp) (st : EngineState) :
    Except DBError Unit × EngineState :=
  let st := match st.db with
    | none => if cfg.folder then { st with db := some [] } else loadDB cfg st
    | some _ => st
  txFinish cfg prog { st with pendingOps := [] }

/-- A whole run: a sequence of transactions against one engine instance. -/
def runTransactions (cfg : Config) : List (List TxOp) → EngineState →
    EngineState
  | [], st => st
  | p :: rest, st => runTransactions cfg rest (transaction cfg p st).2

end Sencillo

namespace Sencillo

/-! ## Concrete scenario data used by the verification -/

/-- A host regex engine stub for concrete runs that use no `$regex`. -/
def rtFalse : JSValue → String → Bool := fun _ _ => false

/-- The default configuration with the stub regex engine. -/
def cfgDefault : Config := defaultConfig rtFalse

/-- An engine whose store has been lazily initialized to empty. -/
def stLoaded : EngineState := { initState with db := some [] }

/-- Folder-mode configuration (no sharding, no AOF, no cache bound). -/
def cfgFolder : Config := { cfgDefault with folder := true }

/-- Sharded folder-mode configuration. -/
def cfgSharded : Config := { cfgDefault with folder := true, sharding := true }

/-- Single-file configuration with AOF enabled. -/
def cfgAof : Config := { cfgDefault with aof := true }

/-- Single-file configuration with a cache bound of one resident unit. -/
def cfgCacheOne : Config := { cfgDefault with maxCacheSize := 1 }

/-- The four documents of spec scenario 1. -/
def peopleData : List JSValue :=
  [ .obj [("name", .str "A"), ("age", .num 24)],
    .obj [("name", .str "A"), ("age", .num 25)],
    .obj [("name", .str "A"), ("age", .num 26)],
    .obj [("name", .str "A"), ("age", .num 27)] ]

/-- Spec scenario 1 as one transaction: `createMany` into "people", update
`_id = 4`, destroy `_id = 3`. -/
def c8prog : List TxOp :=
  [ .createMany { noInstr with collection := some "people", data := some (.arr peopleData) },
    .update { noInstr with collection := some "people", _id := some 4, data := some (.obj [("name", .str "X"), ("age", .num 37)]) },
    .destroy { noInstr with collection := some "people", _id := some 3 } ]

/-- A one-document collection file sitting on disk in folder mode. -/
def colOnDisk : Collection :=
  { stats := { inserted := 1, total := 1 }, idMap := some [(1, "default")],
    secIdx := none, parts := [("default", [.obj [("x", .num 9), ("_id", .num 1)]])] }

/-- Folder-mode pre-state: collection "c" exists on disk, nothing resident. -/
def stFolderPre : EngineState :=
  { initState with disk := { initDisk with colFiles := [("c", colOnDisk)] } }

/-- A transaction that drops collection "c" and then throws. -/
def dropThenFail : List TxOp :=
  [ .dropCollection { noInstr with collection := some "c" }, .fail ]

/-- Two creates into distinct collections (exceeds a cache bound of 1). -/
def twoCollectionCreates : List TxOp :=
  [ .create { noInstr with collection := some "c1", data := some (.obj [("a", .num 1)]) },
    .create { noInstr with collection := some "c2", data := some (.obj [("b", .num 2)]) } ]

/-- Committed transaction: two creates and a destroy in "default". -/
def insertInsertDestroy : List TxOp :=
  [ .create { noInstr with data := some (.obj [("a", .num 1)]) },
    .create { noInstr with data := some (.obj [("a", .num 2)]) },
    .destroy { noInstr with _id := some 1 } ]

/-- Committed transaction: a bare `rewriteCollection` of "default". -/
def rewriteOnly : List TxOp := [ .rewriteCollection noInstr ]

/-- Sharded-mode collection metadata whose ID map names partition "p1". -/
def colMetaP1 : Collection :=
  { stats := { inserted := 1, total := 1 }, idMap := some [(1, "p1")],
    secIdx := none, parts := [] }

/-- Sharded-mode disk: directory "c" with `meta.json` and shard "p1". -/
def diskSharded : DiskState :=
  { initDisk with
    colDirs := ["c"],
    metaFiles := [("c", colMetaP1)],
    shardFiles := [(("c", "p1"), [.obj [("x", .num 1), ("_id", .num 1)]])] }

/-- Sharded-mode state: metadata of "c" resident, shard "p1" not loaded. -/
def stShardedPre : EngineState :=
  { initState with db := some [("c", colMetaP1)], disk := diskSharded }

/-- An AOF file with one good create, one malformed line, one unknown op
and one failing destroy. -/
def aofMixedLines : List AofLine :=
  [ .record "create" { noInstr with collection := some "users", data := some (.obj [("name", .str "Bob")]) },
    .malformed,
    .record "bogus" noInstr,
    .record "destroy" { noInstr with collection := some "users", _id := some 99 } ]

/-- Single-file pre-state carrying that AOF file. -/
def stWithAof : EngineState :=
  { initState with disk := { initDisk with aof := some aofMixedLines } }

/-- `Stats.inserted` of a collection as resident in a state (0 when the
collection is absent). -/
def insOf (st : EngineState) (c : String) : Int :=
  match colOf st c with
  | some col => col.stats.inserted
  | none => 0

/-- The observation counter of successful `create` invocations against a
collection. -/
def ghostOf (st : EngineState) (c : String) : Nat :=
  (alook st.createCount c).getD 0

/-- Whether every transaction of a run commits (no rollback). -/
def committedRun (cfg : Config) : List (List TxOp) → EngineState → Bool
  | [], _ => true
  | p :: rest, st =>
    match transaction cfg p st with
    | (.ok _, st2) => committedRun cfg rest st2
    | (.error _, _) => false

/-- Operations outside `rewriteCollection` and `dropCollection`, which both
reset or discard collection statistics. -/
def keepsStats : TxOp → Bool
  | .rewriteCollection _ => false
  | .dropCollection _ => false
  | _ => true

/-- A run from a fresh engine under the default configuration. -/
def runT (rt : JSValue → String → Bool) (progs : List (List TxOp)) : EngineState :=
  runTransactions (defaultConfig rt) progs initState

/-- The collection value scenario 1 must leave behind. -/
def c8Expected : Collection :=
  { stats := { inserted := 4, total := 3 },
    idMap := some [(1, "default"), (2, "default"), (4, "default")],
    secIdx := none,
    parts := [("default",
      [ .obj [("name", .str "A"), ("age", .num 24), ("_id", .num 1)],
        .obj [("name", .str "A"), ("age", .num 25), ("_id", .num 2)],
        .obj [("name", .str "X"), ("age", .num 37), ("_id", .num 4)] ])] }

end Sencillo

namespace Sencillo

/-- A `create` instruction whose `index` is the `{current, new}` object form
(the form `update` accepts). -/
def objFormInstr (c : String) (cur : Option String) (nw : Option NewIdx)
    (data : JSValue) : Instructions :=
  { noInstr with collection := some c, data := some data, index := some (.objForm cur nw) }

end Sencillo

namespace Sencillo

/-- Sharded folder-mode configuration over an arbitrary host regex engine. -/
def shardedCfg (rt : JSValue → String → Bool) : Config :=
  { folder := true, sharding := true, aof := false, maxCacheSize := 0,
    regexTest := rt }

/-- An `update`/`destroy` instruction addressing a document by id. -/
def idInstr (c : String) (id : Int) (data : Option JSValue) : Instructions :=
  { noInstr with collection := some c, _id := some id, data := data }

end Sencillo

namespace Sencillo

/-- The LRU bookkeeping of `b` agrees with `a`. -/
def cacheFrame (a b : EngineState) : Prop :=
  b.lru = a.lru ∧ b.evictions = a.evictions

/-- The storage tree and the dirty set (and pending-op buffer) of `b` agree
with `a`. -/
def diskFrame (a b : EngineState) : Prop :=
  b.disk = a.disk ∧ b.dirty = a.dirty ∧ b.pendingOps = a.pendingOps

end Sencillo
namespace Sencillo

/-! ## Theorems -/

theorem opHolds_eq_specOpHolds (rt : JSValue → String → Bool) (v : JSValue)
    (op : String) (t c : JSValue) :
    opHolds rt v op t c = specOpHolds rt v op t c := by
  unfold opHolds specOpHolds
  by_cases h1 : op = "$eq"
  case pos => simp [h1]
  all_goals by_cases h2 : op = "$ne"
  case pos => simp [h1, h2]
  all_goals by_cases h3 : op = "$gt"
  case pos => simp [h1, h2, h3]
  all_goals by_cases h4 : op = "$gte"
  case pos => simp [h1, h2, h3, h4]
  all_goals by_cases h5 : op = "$lt"
  case pos => simp [h1, h2, h3, h4, h5]
  all_goals by_cases h6 : op = "$lte"
  case pos => simp [h1, h2, h3, h4, h5, h6]
  all_goals by_cases h7 : op = "$in"
  case pos => simp [h1, h2, h3, h4, h5, h6, h7]
  all_goals by_cases h8 : op = "$nin"
  case pos => simp [h1, h2, h3, h4, h5, h6, h7, h8]
  all_goals by_cases h9 : op = "$regex"
  case pos => simp [h1, h2, h3, h4, h5, h6, h7, h8, h9]
  all_goals simp [h1, h2, h3, h4, h5, h6, h7, h8, h9]

theorem condLoop_eq_all (rt : JSValue → String → Bool) (v c : JSValue)
    (ps : List (String × JSValue)) :
    condLoop rt v c ps = ps.all (fun p => specOpHolds rt v p.1 p.2 c) := by
  induction ps with
  | nil => rfl
  | cons hd tl ih =>
    simp only [condLoop, List.all_cons, opHolds_eq_specOpHolds, ih]
    by_cases h : specOpHolds rt v hd.1 hd.2 c = true <;> simp [h]

theorem filterLoop_eq_all (rt : JSValue → String → Bool) (item : JSValue)
    (filter : List (String × JSValue)) :
    filterLoop rt item filter =
      filter.all (fun p => specClauseHolds rt item p.1 p.2) := by
  induction filter with
  | nil => rfl
  | cons hd tl ih =>
    obtain ⟨key, condition⟩ := hd
    simp only [filterLoop, List.all_cons]
    have hcl : (match condition with
        | .obj a => condLoop rt (getField item key) condition
            (enumPairs condition)
        | .arr a => condLoop rt (getField item key) condition
            (enumPairs condition)
        | _ => strictEq (getField item key) condition) =
        specClauseHolds rt item key condition := by
      unfold specClauseHolds
      cases condition <;> simp [condLoop_eq_all]
    rw [hcl]
    by_cases h : specClauseHolds rt item key condition = true <;> simp [h, ih]

end Sencillo

namespace Sencillo

/-- C5: the compiled matcher agrees with the spec semantics: a document
matches iff every field clause holds (a literal clause by strict equality,
an operator-object clause by the operator table, an unknown operator by deep
structural comparison of canonical serializations with the entire
operator-object) and the user predicate, when present, returns truthy. -/
theorem claim_C5_matcher_semantics (rt : JSValue → String → Bool)
    (filter : List (String × JSValue)) (callback : Option (JSValue → JSValue))
    (item : JSValue) :
    matchFn rt filter callback item = specMatch rt filter callback item := by
  unfold matchFn specMatch
  rw [filterLoop_eq_all]
  by_cases h : (filter.all fun p => specClauseHolds rt item p.1 p.2) = true
  · simp [h]
  · simp [h]

/-- C8: spec scenario 1.  After `createMany` of the four documents into
"people", updating `_id = 4` and destroying `_id = 3`, partition "default"
holds exactly the three expected documents in order (field order follows the
engine's `{...data, _id}` construction) and `Stats = {inserted: 4, total: 3}`. -/
theorem claim_C8_scenario :
    colOf (runTransactions cfgDefault [c8prog] initState) "people" = some c8Expected := by
  rfl

/-- C3 fails on the code: `create` accepts a truthy non-object `data` (the
number 5) and inserts the document `{_id: 1}` instead of raising a
Validation error. -/
theorem claim_C3_counterexample :
    (create cfgDefault { noInstr with data := some (.num 5) } stLoaded).1 =
      .ok (.obj [("_id", .num 1)]) := by
  rfl

end Sencillo

namespace Sencillo

/-- C3 amended: on a loaded store, `create` raises its Validation error
exactly when the effective `data` argument is falsy under JavaScript
truthiness (missing `data` defaults to `false`); any truthy value — object
or not — is accepted. -/
theorem claim_C3_amended (cfg : Config) (instr : Instructions)
    (st : EngineState) (hdb : st.db.isSome = true) :
    ((create cfg instr st).1 =
        .error (.validation "CREATE ERROR: no data given") ↔
      toBool (instr.data.getD (.bool false)) = false) := by
  by_cases h : toBool (instr.data.getD (.bool false)) = false
  · unfold create
    simp [h]
  · simp only [Bool.not_eq_false] at h
    have h2 : st.db.isNone = false := by
      cases hval : st.db
      · rw [hval] at hdb; simp at hdb
      · simp [hval]
    rw [h]
    simp only [Bool.true_eq_false, iff_false]
    unfold create
    simp only [h, Bool.not_true, Bool.false_eq_true, if_false, h2]
    intro hcontra
    repeat' split at hcontra
    all_goals simp_all

/-- Witness for the C3 amended theorem at a concrete input: `create` with
missing `data` raises the Validation error. -/
theorem claim_C3_amended_witness :
    (create cfgDefault noInstr stLoaded).1 =
      .error (.validation "CREATE ERROR: no data given") :=
  (claim_C3_amended cfgDefault noInstr stLoaded rfl).mpr rfl

end Sencillo

namespace Sencillo

/-- C10: a `create` whose `index` argument is neither a string nor a
function (the `{current, new}` object form) stores the new document in
partition "default" and points the ID-map entry of its `_id` at "default". -/
theorem claim_C10_objform_index_defaults (rt : JSValue → String → Bool)
    (c : String) (cur : Option String) (nw : Option NewIdx) (data : JSValue)
    (hdata : toBool data = true) :
    (create (defaultConfig rt) (objFormInstr c cur nw data) stLoaded).1 =
      .ok (spreadWithId data 1) ∧
    (∃ col,
      colOf (create (defaultConfig rt) (objFormInstr c cur nw data) stLoaded).2 c
          = some col ∧
      alook col.parts "default" = some [spreadWithId data 1] ∧
      col.idMap = some [(1, "default")]) := by
  unfold create getCollection touch
  simp [hdata, defaultConfig, stLoaded, initState, initDisk, colOf, dbOf,
    setCol, alook, aset, emptyCollection, bumpCreate, secAddId, objFormInstr]

/-- Witness for C10 at a concrete input: creating `{z: 3}` into "k" with a
`{current: "a", new: "b"}` index lands in partition "default". -/
theorem claim_C10_objform_index_defaults_witness :
    (create (defaultConfig rtFalse)
        (objFormInstr "k" (some "a") (some (.s "b")) (.obj [("z", .num 3)]))
        stLoaded).1 = .ok (spreadWithId (.obj [("z", .num 3)]) 1) ∧
    (∃ col,
      colOf (create (defaultConfig rtFalse)
        (objFormInstr "k" (some "a") (some (.s "b")) (.obj [("z", .num 3)]))
        stLoaded).2 "k" = some col ∧
      alook col.parts "default" = some [spreadWithId (.obj [("z", .num 3)]) 1] ∧
      col.idMap = some [(1, "default")]) :=
  claim_C10_objform_index_defaults rtFalse "k" (some "a") (some (.s "b"))
    (.obj [("z", .num 3)]) rfl

end Sencillo

namespace Sencillo

/-- `#getCollection` leaves the state untouched when the collection is
resident and the cache is unbounded. -/
theorem getCollection_resident (cfg : Config) (c : String) (st : EngineState)
    (col : Collection) (hm : cfg.maxCacheSize = 0)
    (hcol : colOf st c = some col) :
    getCollection cfg c st = st := by
  have hcol2 : alook (dbOf st) c = some col := hcol
  unfold getCollection touch
  cases hdb : st.db with
  | none => simp [dbOf, hdb, alook] at hcol2
  | some db =>
    simp [dbOf, hdb] at hcol2
    simp [hdb, hm, hcol2]

/-- C9: in sharded mode, `update` and `destroy` on a document whose ID-map
partition is not resident do not load the shard: they index into the absent
partition and raise a TypeError, leaving the collection (and in particular
its partition set) unchanged — neither the mutation nor `DocumentNotFound`
happens. -/
theorem claim_C9_nonresident_shard_type_error (rt : JSValue → String → Bool)
    (c p : String) (id : Int) (data : Option JSValue) (st : EngineState)
    (col : Collection) (im : List (Int × String))
    (hcol : colOf st c = some col)
    (him : col.idMap = some im) (hlook : alook im id = some p) (hp : p ≠ "")
    (habs : alook col.parts p = none) :
    (update (shardedCfg rt) (idInstr c id data) st).1 = .error .typeError ∧
    colOf (update (shardedCfg rt) (idInstr c id data) st).2 c = some col ∧
    (destroy (shardedCfg rt) (idInstr c id none) st).1 = .error .typeError ∧
    colOf (destroy (shardedCfg rt) (idInstr c id none) st).2 c = some col := by
  have hdbs : st.db.isNone = false := by
    unfold colOf dbOf at hcol
    cases hdb : st.db with
    | none => rw [hdb] at hcol; simp [alook] at hcol
    | some db => simp [hdb]
  have hloc : locatePartition col id = .ok p := by
    unfold locatePartition
    simp [him, hlook, hp]
  have hcol1 : ∀ d : List String, colOf { st with dirty := d } c = some col := fun _ => hcol
  unfold update destroy
  simp only [idInstr, noInstr, Option.getD_some, hdbs, Bool.false_eq_true, if_false]
  rw [getCollection_resident (shardedCfg rt) c st col rfl hcol]
  simp only [shardedCfg, if_true, hcol1, hloc, habs, hcol]
  simp

/-- Witness for C9: metadata of "c" resident with `IdMap = {1: "p1"}`, shard
"p1" on disk but not loaded — update and destroy of `_id = 1` both raise the
TypeError. -/
theorem claim_C9_nonresident_shard_type_error_witness :
    (update (shardedCfg rtFalse) (idInstr "c" 1 (some (.obj [("x", .num 2)]))) stShardedPre).1 = .error .typeError ∧
    colOf (update (shardedCfg rtFalse) (idInstr "c" 1 (some (.obj [("x", .num 2)]))) stShardedPre).2 "c" = some colMetaP1 ∧
    (destroy (shardedCfg rtFalse) (idInstr "c" 1 none) stShardedPre).1 = .error .typeError ∧
    colOf (destroy (shardedCfg rtFalse) (idInstr "c" 1 none) stShardedPre).2 "c" = some colMetaP1 :=
  claim_C9_nonresident_shard_type_error rtFalse "c" "p1" 1
    (some (.obj [("x", .num 2)])) stShardedPre colMetaP1 [(1, "p1")]
    rfl rfl rfl (by decide) rfl

end Sencillo

namespace Sencillo

/-- C1 fails on the code: in folder mode, a transaction that drops
collection "c" and then throws leaves the on-disk state changed — the
collection file was deleted during the transaction and rollback does not
restore it. -/
theorem claim_C1_counterexample :
    (transaction cfgFolder dropThenFail stFolderPre).1 = .error .userThrow ∧
    (transaction cfgFolder dropThenFail stFolderPre).2.disk.colFiles = [] ∧
    stFolderPre.disk.colFiles = [("c", colOnDisk)] ∧
    (transaction cfgFolder dropThenFail stFolderPre).2.disk.colFiles ≠
      stFolderPre.disk.colFiles := by
  refine ⟨rfl, rfl, rfl, ?_⟩
  intro h
  have h1 : (transaction cfgFolder dropThenFail stFolderPre).2.disk.colFiles = [] := rfl
  have h2 : stFolderPre.disk.colFiles = [("c", colOnDisk)] := rfl
  rw [h1, h2] at h
  simp at h

/-- C4 fails on the code: in single-file mode (not folder/sharded) with
`maxCacheSize = 1`, two creates into distinct collections trigger an
eviction — collection "c1" is removed from the in-memory Database by the
cache machinery and, never having been marked dirty, is absent from the
committed base document as well. -/
theorem claim_C4_counterexample :
    cfgCacheOne.folder = false ∧
    (transaction cfgCacheOne twoCollectionCreates initState).1 = .ok () ∧
    (transaction cfgCacheOne twoCollectionCreates initState).2.evictions = 1 ∧
    colOf (transaction cfgCacheOne twoCollectionCreates initState).2 "c1" = none ∧
    (transaction cfgCacheOne twoCollectionCreates initState).2.disk.base.map
      (fun p => p.1) = ["c2"] := by
  refine ⟨rfl, ?_, ?_, ?_, ?_⟩ <;> rfl

end Sencillo

namespace Sencillo

/-! Frame lemmas: which state components each helper leaves untouched. -/

theorem cacheFrame_refl (a : EngineState) : cacheFrame a a := ⟨rfl, rfl⟩

theorem cacheFrame_trans {a b c : EngineState} (h1 : cacheFrame a b)
    (h2 : cacheFrame b c) : cacheFrame a c :=
  ⟨h2.1.trans h1.1, h2.2.trans h1.2⟩

theorem diskFrame_refl (a : EngineState) : diskFrame a a := ⟨rfl, rfl, rfl⟩

theorem diskFrame_trans {a b c : EngineState} (h1 : diskFrame a b)
    (h2 : diskFrame b c) : diskFrame a c :=
  ⟨h2.1.trans h1.1, h2.2.1.trans h1.2.1, h2.2.2.trans h1.2.2⟩

theorem touch_zero (cfg : Config) (k : String) (st : EngineState)
    (hm : cfg.maxCacheSize = 0) : touch cfg k st = st := by
  unfold touch
  simp [hm]

theorem saveShard_nofolder (cfg : Config) (a b : String) (st : EngineState)
    (hf : cfg.folder = false) : saveShard cfg a b st = st := by
  unfold saveShard
  simp [hf]

theorem saveCollection_nofolder (cfg : Config) (a : String) (st : EngineState)
    (hf : cfg.folder = false) : saveCollection cfg a st = st := by
  unfold saveCollection
  simp [hf]

theorem getShard_nofolder (cfg : Config) (a b : String) (st : EngineState)
    (hf : cfg.folder = false) : getShard cfg a b st = st := by
  unfold getShard
  simp [hf]

theorem evict_df (cfg : Config) (st : EngineState) (hf : cfg.folder = false) :
    diskFrame st (evict cfg st) := by
  unfold diskFrame evict
  simp only [saveShard_nofolder _ _ _ _ hf, saveCollection_nofolder _ _ _ hf]
  refine ⟨?_, ?_, ?_⟩
  all_goals repeat' split
  all_goals simp_all

theorem touch_df (cfg : Config) (k : String) (st : EngineState)
    (hf : cfg.folder = false) : diskFrame st (touch cfg k st) := by
  unfold diskFrame touch
  refine ⟨?_, ?_, ?_⟩
  all_goals dsimp only
  all_goals repeat' split
  all_goals first
    | rfl
    | exact (evict_df cfg _ hf).1
    | exact (evict_df cfg _ hf).2.1
    | exact (evict_df cfg _ hf).2.2

theorem getCollection_df (cfg : Config) (c : String) (st : EngineState)
    (hf : cfg.folder = false) : diskFrame st (getCollection cfg c st) := by
  unfold diskFrame getCollection
  refine ⟨?_, ?_, ?_⟩
  all_goals dsimp only
  all_goals repeat' split
  all_goals first
    | exact (touch_df cfg c _ hf).1
    | exact (touch_df cfg c _ hf).2.1
    | exact (touch_df cfg c _ hf).2.2

theorem getCollection_cf (cfg : Config) (c : String) (st : EngineState)
    (hm : cfg.maxCacheSize = 0) : cacheFrame st (getCollection cfg c st) := by
  unfold cacheFrame getCollection
  refine ⟨?_, ?_⟩
  all_goals dsimp only
  all_goals simp only [touch_zero cfg c _ hm]
  all_goals repeat' split
  all_goals rfl

theorem getShard_cf (cfg : Config) (a b : String) (st : EngineState)
    (hm : cfg.maxCacheSize = 0) : cacheFrame st (getShard cfg a b st) := by
  unfold cacheFrame getShard
  refine ⟨?_, ?_⟩
  all_goals dsimp only
  all_goals simp only [touch_zero _ _ _ hm]
  all_goals repeat' split
  all_goals rfl

end Sencillo


namespace Sencillo

theorem touch_disk_nf (cfg : Config) (k : String) (st : EngineState)
    (hf : cfg.folder = false) : (touch cfg k st).disk = st.disk :=
  (touch_df cfg k st hf).1

theorem touch_dirty_nf (cfg : Config) (k : String) (st : EngineState)
    (hf : cfg.folder = false) : (touch cfg k st).dirty = st.dirty :=
  (touch_df cfg k st hf).2.1

theorem touch_pend_nf (cfg : Config) (k : String) (st : EngineState)
    (hf : cfg.folder = false) : (touch cfg k st).pendingOps = st.pendingOps :=
  (touch_df cfg k st hf).2.2

theorem getCollection_disk_nf (cfg : Config) (c : String) (st : EngineState)
    (hf : cfg.folder = false) : (getCollection cfg c st).disk = st.disk :=
  (getCollection_df cfg c st hf).1

theorem getCollection_dirty_nf (cfg : Config) (c : String) (st : EngineState)
    (hf : cfg.folder = false) : (getCollection cfg c st).dirty = st.dirty :=
  (getCollection_df cfg c st hf).2.1

theorem getCollection_pend_nf (cfg : Config) (c : String) (st : EngineState)
    (hf : cfg.folder = false) : (getCollection cfg c st).pendingOps = st.pendingOps :=
  (getCollection_df cfg c st hf).2.2

theorem getCollection_lru_z (cfg : Config) (c : String) (st : EngineState)
    (hm : cfg.maxCacheSize = 0) : (getCollection cfg c st).lru = st.lru :=
  (getCollection_cf cfg c st hm).1

theorem getCollection_ev_z (cfg : Config) (c : String) (st : EngineState)
    (hm : cfg.maxCacheSize = 0) : (getCollection cfg c st).evictions = st.evictions :=
  (getCollection_cf cfg c st hm).2

theorem getShard_lru_z (cfg : Config) (a b : String) (st : EngineState)
    (hm : cfg.maxCacheSize = 0) : (getShard cfg a b st).lru = st.lru :=
  (getShard_cf cfg a b st hm).1

theorem getShard_ev_z (cfg : Config) (a b : String) (st : EngineState)
    (hm : cfg.maxCacheSize = 0) : (getShard cfg a b st).evictions = st.evictions :=
  (getShard_cf cfg a b st hm).2

theorem foldl_getShard_cf (cfg : Config) (c : String)
    (hm : cfg.maxCacheSize = 0) :
    ∀ (l : List String) (st : EngineState),
      cacheFrame st (List.foldl (fun s i => getShard cfg c i s) st l)
  | [], st => cacheFrame_refl st
  | hd :: tl, st => by
    rw [List.foldl_cons]
    exact cacheFrame_trans (getShard_cf cfg c hd st hm)
      (foldl_getShard_cf cfg c hm tl _)

theorem loadAllShards_nofolder (cfg : Config) (c : String) (st : EngineState)
    (hf : cfg.folder = false) : loadAllShards cfg c st = st := by
  unfold loadAllShards
  split
  · generalize (st.disk.shardFiles.filterMap
      (fun e => if e.1.1 = c then some e.1.2 else none)) = l
    induction l generalizing st with
    | nil => rfl
    | cons hd tl ih => simp [List.foldl_cons, getShard_nofolder _ _ _ _ hf, ih]
  · rfl

theorem loadAllShards_lru_z (cfg : Config) (c : String) (st : EngineState)
    (hm : cfg.maxCacheSize = 0) : (loadAllShards cfg c st).lru = st.lru := by
  unfold loadAllShards
  split
  · exact (foldl_getShard_cf cfg c hm _ st).1
  · rfl

theorem loadAllShards_ev_z (cfg : Config) (c : String) (st : EngineState)
    (hm : cfg.maxCacheSize = 0) : (loadAllShards cfg c st).evictions = st.evictions := by
  unfold loadAllShards
  split
  · exact (foldl_getShard_cf cfg c hm _ st).2
  · rfl

theorem create_df (cfg : Config) (i : Instructions) (st : EngineState)
    (hf : cfg.folder = false) : diskFrame st (create cfg i st).2 := by
  unfold diskFrame create
  simp only [getShard_nofolder _ _ _ _ hf, hf, Bool.false_eq_true, if_false]
  refine ⟨?_, ?_, ?_⟩
  all_goals dsimp only
  all_goals repeat' split
  all_goals simp_all [setCol, bumpCreate, touch_disk_nf _ _ _ hf,
    touch_dirty_nf _ _ _ hf, touch_pend_nf _ _ _ hf,
    getCollection_disk_nf _ _ _ hf, getCollection_dirty_nf _ _ _ hf,
    getCollection_pend_nf _ _ _ hf]

end Sencillo

namespace Sencillo

theorem create_cf (cfg : Config) (i : Instructions) (st : EngineState)
    (hm : cfg.maxCacheSize = 0) : cacheFrame st (create cfg i st).2 := by
  unfold cacheFrame create
  refine ⟨?_, ?_⟩
  all_goals repeat' (first
    | rfl
    | split
    | simp only [setCol, bumpCreate, touch_zero _ _ _ hm,
        getShard_lru_z _ _ _ _ hm, getShard_ev_z _ _ _ _ hm,
        getCollection_lru_z _ _ _ hm, getCollection_ev_z _ _ _ hm])

end Sencillo

namespace Sencillo

theorem createLoop_df (cfg : Config) (c : String) (idx : Option IndexArg)
    (hf : cfg.folder = false) :
    ∀ (items : List JSValue) (st : EngineState) (acc : List JSValue),
      diskFrame st (createLoop cfg c idx items st acc).2
  | [], st, acc => diskFrame_refl st
  | item :: rest, st, acc => by
    unfold createLoop
    have hc := create_df cfg
      { noInstr with collection := some c, data := some item, index := idx } st hf
    split
    · rename_i doc st2 heq
      rw [heq] at hc
      exact diskFrame_trans hc (createLoop_df cfg c idx hf rest st2 _)
    · rename_i e st2 heq
      rw [heq] at hc
      exact hc

theorem createLoop_cf (cfg : Config) (c : String) (idx : Option IndexArg)
    (hm : cfg.maxCacheSize = 0) :
    ∀ (items : List JSValue) (st : EngineState) (acc : List JSValue),
      cacheFrame st (createLoop cfg c idx items st acc).2
  | [], st, acc => cacheFrame_refl st
  | item :: rest, st, acc => by
    unfold createLoop
    have hc := create_cf cfg
      { noInstr with collection := some c, data := some item, index := idx } st hm
    split
    · rename_i doc st2 heq
      rw [heq] at hc
      exact cacheFrame_trans hc (createLoop_cf cfg c idx hm rest st2 _)
    · rename_i e st2 heq
      rw [heq] at hc
      exact hc

theorem createMany_df (cfg : Config) (i : Instructions) (st : EngineState)
    (hf : cfg.folder = false) : diskFrame st (createMany cfg i st).2 := by
  unfold createMany
  repeat' split
  all_goals first
    | exact diskFrame_refl st
    | exact diskFrame_trans (getCollection_df cfg _ _ hf) (createLoop_df cfg _ _ hf _ _ _)
    | exact getCollection_df cfg _ _ hf
    | simp_all

theorem createMany_cf (cfg : Config) (i : Instructions) (st : EngineState)
    (hm : cfg.maxCacheSize = 0) : cacheFrame st (createMany cfg i st).2 := by
  unfold createMany
  repeat' split
  all_goals first
    | exact cacheFrame_refl st
    | exact cacheFrame_trans (getCollection_cf cfg _ _ hm) (createLoop_cf cfg _ _ hm _ _ _)
    | exact cacheFrame_trans (getCollection_cf cfg _ _ hm)
        (cacheFrame_trans ⟨rfl, rfl⟩ (createLoop_cf cfg _ _ hm _ _ _))
    | exact cacheFrame_trans (getCollection_cf cfg _ _ hm) ⟨rfl, rfl⟩

end Sencillo

namespace Sencillo

theorem fmCollectIds_df (cfg : Config) (c : String) (matcher : JSValue → Bool)
    (hf : cfg.folder = false) :
    ∀ (ids : List Int) (st : EngineState) (acc : List JSValue),
      diskFrame st (fmCollectIds cfg c matcher ids st acc).2
  | [], st, acc => diskFrame_refl st
  | id :: rest, st, acc => by
    unfold fmCollectIds
    simp only [getShard_nofolder _ _ _ _ hf, hf, Bool.false_eq_true, if_false]
    repeat' split
    all_goals first
      | exact diskFrame_refl st
      | exact fmCollectIds_df cfg c matcher hf rest st acc
      | exact fmCollectIds_df cfg c matcher hf rest st _

theorem fmCollectIds_cf (cfg : Config) (c : String) (matcher : JSValue → Bool)
    (hm : cfg.maxCacheSize = 0) :
    ∀ (ids : List Int) (st : EngineState) (acc : List JSValue),
      cacheFrame st (fmCollectIds cfg c matcher ids st acc).2
  | [], st, acc => cacheFrame_refl st
  | id :: rest, st, acc => by
    unfold fmCollectIds
    dsimp only
    repeat' split
    all_goals first
      | exact cacheFrame_refl st
      | exact fmCollectIds_cf cfg c matcher hm rest st acc
      | exact fmCollectIds_cf cfg c matcher hm rest st _
      | exact getShard_cf cfg _ _ _ hm
      | exact cacheFrame_trans (getShard_cf cfg _ _ _ hm)
          (fmCollectIds_cf cfg c matcher hm rest _ acc)
      | exact cacheFrame_trans (getShard_cf cfg _ _ _ hm)
          (fmCollectIds_cf cfg c matcher hm rest _ _)

theorem fmScanAll_df (cfg : Config) (c : String) (matcher : JSValue → Bool)
    (st : EngineState) (hf : cfg.folder = false) :
    diskFrame st (fmScanAll cfg c matcher st).2 := by
  unfold fmScanAll
  simp only [loadAllShards_nofolder _ _ _ hf]
  repeat' split
  all_goals exact diskFrame_refl st

theorem fmScanAll_cf (cfg : Config) (c : String) (matcher : JSValue → Bool)
    (st : EngineState) (hm : cfg.maxCacheSize = 0) :
    cacheFrame st (fmScanAll cfg c matcher st).2 := by
  unfold fmScanAll
  have hl : cacheFrame st (loadAllShards cfg c st) :=
    ⟨loadAllShards_lru_z cfg c st hm, loadAllShards_ev_z cfg c st hm⟩
  dsimp only
  repeat' split
  all_goals first
    | exact cacheFrame_refl st
    | exact hl

theorem populateRules_df (cfg : Config) (hf : cfg.folder = false) :
    ∀ (rules : List PopRule) (pItem : JSValue) (st : EngineState),
      diskFrame st (populateRules cfg rules pItem st).2
  | [], pItem, st => diskFrame_refl st
  | rule :: rest, pItem, st => by
    unfold populateRules
    simp only [getShard_nofolder _ _ _ _ hf, hf, Bool.false_eq_true, if_false,
      loadAllShards_nofolder _ _ _ hf]
    repeat' split
    all_goals first
      | exact diskFrame_refl st
      | exact populateRules_df cfg hf rest _ st
      | exact diskFrame_trans (getCollection_df cfg _ _ hf)
          (populateRules_df cfg hf rest _ _)
      | exact getCollection_df cfg _ _ hf

theorem populateRules_cf (cfg : Config) (hm : cfg.maxCacheSize = 0) :
    ∀ (rules : List PopRule) (pItem : JSValue) (st : EngineState),
      cacheFrame st (populateRules cfg rules pItem st).2
  | [], pItem, st => cacheFrame_refl st
  | rule :: rest, pItem, st => by
    unfold populateRules
    have hload : ∀ s, cacheFrame s (loadAllShards cfg rule.collection s) :=
      fun s => ⟨loadAllShards_lru_z cfg _ s hm, loadAllShards_ev_z cfg _ s hm⟩
    dsimp only
    repeat' split
    all_goals first
      | exact cacheFrame_refl st
      | exact populateRules_cf cfg hm rest _ st
      | exact cacheFrame_trans (getCollection_cf cfg _ _ hm)
          (populateRules_cf cfg hm rest _ _)
      | exact getCollection_cf cfg _ _ hm
      | exact cacheFrame_trans (getCollection_cf cfg _ _ hm)
          (cacheFrame_trans (getShard_cf cfg _ _ _ hm)
            (populateRules_cf cfg hm rest _ _))
      | exact cacheFrame_trans (getCollection_cf cfg _ _ hm)
          (getShard_cf cfg _ _ _ hm)
      | exact cacheFrame_trans (getCollection_cf cfg _ _ hm)
          (cacheFrame_trans (hload _)
            (populateRules_cf cfg hm rest _ _))
      | exact cacheFrame_trans (getCollection_cf cfg _ _ hm) (hload _)

theorem populateItem_df (cfg : Config) (rules : List PopRule) (item : JSValue)
    (st : EngineState) (hf : cfg.folder = false) :
    diskFrame st (populateItem cfg rules item st).2 := by
  unfold populateItem
  split
  · exact diskFrame_refl st
  · exact populateRules_df cfg hf rules _ st

theorem populateItem_cf (cfg : Config) (rules : List PopRule) (item : JSValue)
    (st : EngineState) (hm : cfg.maxCacheSize = 0) :
    cacheFrame st (populateItem cfg rules item st).2 := by
  unfold populateItem
  split
  · exact cacheFrame_refl st
  · exact populateRules_cf cfg hm rules _ st

theorem populateResults_df (cfg : Config) (rules : List PopRule)
    (hf : cfg.folder = false) :
    ∀ (docs : List JSValue) (st : EngineState) (acc : List JSValue),
      diskFrame st (populateResults cfg rules docs st acc).2
  | [], st, acc => diskFrame_refl st
  | doc :: rest, st, acc => by
    unfold populateResults
    have hp := populateItem_df cfg rules doc st hf
    split
    · rename_i d st2 heq
      rw [heq] at hp
      exact diskFrame_trans hp (populateResults_df cfg rules hf rest st2 _)
    · rename_i e st2 heq
      rw [heq] at hp
      exact hp

theorem populateResults_cf (cfg : Config) (rules : List PopRule)
    (hm : cfg.maxCacheSize = 0) :
    ∀ (docs : List JSValue) (st : EngineState) (acc : List JSValue),
      cacheFrame st (populateResults cfg rules docs st acc).2
  | [], st, acc => cacheFrame_refl st
  | doc :: rest, st, acc => by
    unfold populateResults
    have hp := populateItem_cf cfg rules doc st hm
    split
    · rename_i d st2 heq
      rw [heq] at hp
      exact cacheFrame_trans hp (populateResults_cf cfg rules hm rest st2 _)
    · rename_i e st2 heq
      rw [heq] at hp
      exact hp

theorem fmScan_df (cfg : Config) (i : Instructions) (collection : String)
    (matcher : JSValue → Bool) (col : Collection) (st : EngineState)
    (hf : cfg.folder = false) :
    diskFrame st (fmScan cfg i collection matcher col st).2 := by
  unfold fmScan
  simp only [getShard_nofolder _ _ _ _ hf]
  repeat' split
  all_goals first
    | exact diskFrame_refl st
    | exact fmCollectIds_df cfg _ _ hf _ _ _
    | exact fmScanAll_df cfg _ _ _ hf

theorem fmScan_cf (cfg : Config) (i : Instructions) (collection : String)
    (matcher : JSValue → Bool) (col : Collection) (st : EngineState)
    (hm : cfg.maxCacheSize = 0) :
    cacheFrame st (fmScan cfg i collection matcher col st).2 := by
  unfold fmScan
  dsimp only
  repeat' split
  all_goals first
    | exact cacheFrame_refl st
    | exact fmCollectIds_cf cfg _ _ hm _ _ _
    | exact fmScanAll_cf cfg _ _ _ hm
    | exact getShard_cf cfg _ _ _ hm

theorem findMany_df (cfg : Config) (i : Instructions) (st : EngineState)
    (hf : cfg.folder = false) : diskFrame st (findMany cfg i st).2 := by
  unfold findMany
  dsimp only
  by_cases hdb : st.db.isNone = true
  · rw [if_pos hdb]
    exact diskFrame_refl st
  · rw [if_neg hdb]
    have hg := getCollection_df cfg (i.collection.getD "default") st hf
    generalize hG : getCollection cfg (i.collection.getD "default") st = st1 at hg ⊢
    rcases hcol : colOf st1 (i.collection.getD "default") with _ | col
    · simp only [hcol]
      exact hg
    · simp only [hcol]
      have hs := diskFrame_trans hg
        (fmScan_df cfg i (i.collection.getD "default")
          (matchFn cfg.regexTest (i.filter.getD []) i.callback) col st1 hf)
      rcases hq : fmScan cfg i (i.collection.getD "default")
          (matchFn cfg.regexTest (i.filter.getD []) i.callback) col st1 with ⟨r, st2⟩
      rw [hq] at hs
      rcases r with e | results
      · exact hs
      · rcases hp : i.populate with _ | rules
        · simp only [hp]
          exact hs
        · simp only [hp]
          exact diskFrame_trans hs (populateResults_df cfg _ hf _ _ _)

theorem findMany_cf (cfg : Config) (i : Instructions) (st : EngineState)
    (hm : cfg.maxCacheSize = 0) : cacheFrame st (findMany cfg i st).2 := by
  unfold findMany
  dsimp only
  by_cases hdb : st.db.isNone = true
  · rw [if_pos hdb]
    exact cacheFrame_refl st
  · rw [if_neg hdb]
    have hg := getCollection_cf cfg (i.collection.getD "default") st hm
    generalize hG : getCollection cfg (i.collection.getD "default") st = st1 at hg ⊢
    rcases hcol : colOf st1 (i.collection.getD "default") with _ | col
    · simp only [hcol]
      exact hg
    · simp only [hcol]
      have hs := cacheFrame_trans hg
        (fmScan_cf cfg i (i.collection.getD "default")
          (matchFn cfg.regexTest (i.filter.getD []) i.callback) col st1 hm)
      rcases hq : fmScan cfg i (i.collection.getD "default")
          (matchFn cfg.regexTest (i.filter.getD []) i.callback) col st1 with ⟨r, st2⟩
      rw [hq] at hs
      rcases r with e | results
      · exact hs
      · rcases hp : i.populate with _ | rules
        · simp only [hp]
          exact hs
        · simp only [hp]
          exact cacheFrame_trans hs (populateResults_cf cfg _ hm _ _ _)

end Sencillo

namespace Sencillo

theorem updateMove_df (cfg : Config) (collection idx : String)
    (itemIndex : Nat) (docs : List JSValue) (newItem : JSValue)
    (index : Option IndexArg) (col : Collection) (_id : Int)
    (st : EngineState) (hf : cfg.folder = false) :
    ∀ r, updateMove cfg collection idx itemIndex docs newItem index col _id st
        = .ok r → diskFrame st r.1 := by
  intro r hr
  unfold updateMove at hr
  simp only [getShard_nofolder _ _ _ _ hf, ite_self] at hr
  repeat' split at hr
  all_goals first
    | (injection hr with hr2
       rw [← hr2]
       unfold diskFrame
       refine ⟨?_, ?_, ?_⟩
       all_goals try dsimp only
       all_goals simp only [setCol, touch_disk_nf _ _ _ hf,
         touch_dirty_nf _ _ _ hf, touch_pend_nf _ _ _ hf])
    | (cases hr)

theorem update_df (cfg : Config) (i : Instructions) (st : EngineState)
    (hf : cfg.folder = false) : diskFrame st (update cfg i st).2 := by
  unfold update
  by_cases hdb : st.db.isNone = true
  · rw [if_pos hdb]
    exact diskFrame_refl st
  · rw [if_neg hdb]
    rcases hid : i._id with _ | _id <;> simp only [hid]
    · exact diskFrame_refl st
    · have hg := getCollection_df cfg (i.collection.getD "default") st hf
      generalize hG : getCollection cfg (i.collection.getD "default") st = st1 at hg ⊢
      have hg2 : diskFrame st (if cfg.folder = true then
          { st1 with dirty := pushNew st1.dirty (i.collection.getD "default") }
          else st1) := by
        split
        · rename_i hfo
          rw [hf] at hfo
          simp at hfo
        · exact hg
      generalize hW : (if cfg.folder = true then
          { st1 with dirty := pushNew st1.dirty (i.collection.getD "default") }
          else st1) = st2 at hg2 ⊢
      rcases hc : colOf st2 (i.collection.getD "default") with _ | col <;> simp only [hc]
      · exact hg2
      · rcases hl : locatePartition col _id with e | idx <;> simp only [hl]
        · exact hg2
        · rcases ha : alook col.parts idx with _ | docs <;> simp only [ha]
          · exact hg2
          · rcases hfi : docs.findIdx?
                (fun item => strictEq (getField item "_id") (.num _id)) with _ | itemIndex
            all_goals simp only [hfi]
            · exact hg2
            · rcases hu : updateMove cfg (i.collection.getD "default") idx itemIndex docs
                  (spreadWithId (i.data.getD .undef) _id) i.index col _id st2 with e | r2
              all_goals simp only [hu]
              · exact hg2
              · obtain ⟨st3, pm⟩ := r2
                have hu2 : diskFrame st st3 :=
                  diskFrame_trans hg2 (updateMove_df cfg _ _ _ _ _ _ _ _ _ hf _ hu)
                rcases hc2 : colOf st3 (i.collection.getD "default") with _ | colF
                all_goals simp only [hc2]
                · exact hu2
                · rcases hsi : colF.secIdx with _ | sis <;> simp only [hsi]
                  · exact hu2
                  · exact diskFrame_trans hu2 ⟨rfl, rfl, rfl⟩

theorem updateMove_cf (cfg : Config) (collection idx : String)
    (itemIndex : Nat) (docs : List JSValue) (newItem : JSValue)
    (index : Option IndexArg) (col : Collection) (_id : Int)
    (st : EngineState) (hm : cfg.maxCacheSize = 0) :
    ∀ r, updateMove cfg collection idx itemIndex docs newItem index col _id st
        = .ok r → cacheFrame st r.1 := by
  intro r hr
  unfold updateMove at hr
  simp only [touch_zero _ _ _ hm] at hr
  repeat' split at hr
  all_goals first
    | (injection hr with hr2
       rw [← hr2]
       unfold cacheFrame
       refine ⟨?_, ?_⟩
       all_goals try dsimp only
       all_goals simp only [setCol, getShard_lru_z _ _ _ _ hm,
         getShard_ev_z _ _ _ _ hm])
    | (cases hr)

theorem update_cf (cfg : Config) (i : Instructions) (st : EngineState)
    (hm : cfg.maxCacheSize = 0) : cacheFrame st (update cfg i st).2 := by
  unfold update
  by_cases hdb : st.db.isNone = true
  · rw [if_pos hdb]
    exact cacheFrame_refl st
  · rw [if_neg hdb]
    rcases hid : i._id with _ | _id <;> simp only [hid]
    · exact cacheFrame_refl st
    · have hg := getCollection_cf cfg (i.collection.getD "default") st hm
      generalize hG : getCollection cfg (i.collection.getD "default") st = st1 at hg ⊢
      have hg2 : cacheFrame st (if cfg.folder = true then
          { st1 with dirty := pushNew st1.dirty (i.collection.getD "default") }
          else st1) := by
        split
        · exact cacheFrame_trans hg ⟨rfl, rfl⟩
        · exact hg
      generalize hW : (if cfg.folder = true then
          { st1 with dirty := pushNew st1.dirty (i.collection.getD "default") }
          else st1) = st2 at hg2 ⊢
      rcases hc : colOf st2 (i.collection.getD "default") with _ | col <;> simp only [hc]
      · exact hg2
      · rcases hl : locatePartition col _id with e | idx <;> simp only [hl]
        · exact hg2
        · rcases ha : alook col.parts idx with _ | docs <;> simp only [ha]
          · exact hg2
          · rcases hfi : docs.findIdx?
                (fun item => strictEq (getField item "_id") (.num _id)) with _ | itemIndex
            all_goals simp only [hfi]
            · exact hg2
            · rcases hu : updateMove cfg (i.collection.getD "default") idx itemIndex docs
                  (spreadWithId (i.data.getD .undef) _id) i.index col _id st2 with e | r2
              all_goals simp only [hu]
              · exact hg2
              · obtain ⟨st3, pm⟩ := r2
                have hu2 : cacheFrame st st3 :=
                  cacheFrame_trans hg2 (updateMove_cf cfg _ _ _ _ _ _ _ _ _ hm _ hu)
                rcases hc2 : colOf st3 (i.collection.getD "default") with _ | colF
                all_goals simp only [hc2]
                · exact hu2
                · rcases hsi : colF.secIdx with _ | sis <;> simp only [hsi]
                  · exact hu2
                  · exact cacheFrame_trans hu2 ⟨rfl, rfl⟩

theorem destroy_df (cfg : Config) (i : Instructions) (st : EngineState)
    (hf : cfg.folder = false) : diskFrame st (destroy cfg i st).2 := by
  unfold destroy
  simp only [hf, Bool.false_eq_true, if_false]
  refine ⟨?_, ?_, ?_⟩
  all_goals repeat' (first
    | rfl
    | split
    | simp only [setCol, getCollection_disk_nf _ _ _ hf,
        getCollection_dirty_nf _ _ _ hf, getCollection_pend_nf _ _ _ hf])

theorem destroy_cf (cfg : Config) (i : Instructions) (st : EngineState)
    (hm : cfg.maxCacheSize = 0) : cacheFrame st (destroy cfg i st).2 := by
  unfold cacheFrame destroy
  refine ⟨?_, ?_⟩
  all_goals repeat' (first
    | rfl
    | split
    | simp only [setCol, getCollection_lru_z _ _ _ hm,
        getCollection_ev_z _ _ _ hm])

theorem dropCollection_df (cfg : Config) (i : Instructions) (st : EngineState)
    (hf : cfg.folder = false) : diskFrame st (dropCollection cfg i st).2 := by
  unfold dropCollection
  simp only [hf, Bool.false_eq_true, if_false]
  refine ⟨?_, ?_, ?_⟩
  all_goals repeat' (first
    | rfl
    | split
    | simp only [getCollection_disk_nf _ _ _ hf,
        getCollection_dirty_nf _ _ _ hf, getCollection_pend_nf _ _ _ hf])

theorem dropCollection_cf (cfg : Config) (i : Instructions) (st : EngineState)
    (hm : cfg.maxCacheSize = 0) : cacheFrame st (dropCollection cfg i st).2 := by
  unfold cacheFrame dropCollection
  refine ⟨?_, ?_⟩
  all_goals repeat' (first
    | rfl
    | split
    | simp only [getCollection_lru_z _ _ _ hm, getCollection_ev_z _ _ _ hm])

theorem dropIndex_df (cfg : Config) (i : Instructions) (st : EngineState)
    (hf : cfg.folder = false) : diskFrame st (dropIndex cfg i st).2 := by
  unfold dropIndex
  simp only [getShard_nofolder _ _ _ _ hf, hf, Bool.false_eq_true, if_false]
  refine ⟨?_, ?_, ?_⟩
  all_goals repeat' (first
    | rfl
    | split
    | simp only [setCol, getCollection_disk_nf _ _ _ hf,
        getCollection_dirty_nf _ _ _ hf, getCollection_pend_nf _ _ _ hf])

theorem dropIndex_cf (cfg : Config) (i : Instructions) (st : EngineState)
    (hm : cfg.maxCacheSize = 0) : cacheFrame st (dropIndex cfg i st).2 := by
  unfold cacheFrame dropIndex
  refine ⟨?_, ?_⟩
  all_goals repeat' (first
    | rfl
    | split
    | simp only [setCol, touch_zero _ _ _ hm, getShard_lru_z _ _ _ _ hm,
        getShard_ev_z _ _ _ _ hm, getCollection_lru_z _ _ _ hm,
        getCollection_ev_z _ _ _ hm])

theorem ensurePopulate_df (cfg : Config) (c f : String) (col : Collection)
    (st : EngineState) (hf : cfg.folder = false) :
    diskFrame st (ensurePopulate cfg c f col st).2 := by
  unfold ensurePopulate
  have h0 : diskFrame st
      (setCol st c { col with secIdx := some (aset (col.secIdx.getD []) f []) }) :=
    ⟨rfl, rfl, rfl⟩
  have hfm := findMany_df cfg { noInstr with collection := some c, callback := some (fun _ => .bool true) } (setCol st c { col with secIdx := some (aset (col.secIdx.getD []) f []) }) hf
  rcases hq : findMany cfg { noInstr with collection := some c, callback := some (fun _ => .bool true) } (setCol st c { col with secIdx := some (aset (col.secIdx.getD []) f []) }) with ⟨r, st2⟩
  rw [hq] at hfm
  have h2 : diskFrame st st2 := diskFrame_trans h0 hfm
  simp only [hq]
  rcases r with e | items
  · exact h2
  · rcases hc : colOf st2 c with _ | col2 <;> simp only [hc]
    · exact h2
    · rcases hsi : col2.secIdx with _ | sis <;> simp only [hsi]
      · exact h2
      · exact diskFrame_trans h2 ⟨rfl, rfl, rfl⟩

theorem ensurePopulate_cf (cfg : Config) (c f : String) (col : Collection)
    (st : EngineState) (hm : cfg.maxCacheSize = 0) :
    cacheFrame st (ensurePopulate cfg c f col st).2 := by
  unfold ensurePopulate
  have h0 : cacheFrame st
      (setCol st c { col with secIdx := some (aset (col.secIdx.getD []) f []) }) :=
    ⟨rfl, rfl⟩
  have hfm := findMany_cf cfg { noInstr with collection := some c, callback := some (fun _ => .bool true) } (setCol st c { col with secIdx := some (aset (col.secIdx.getD []) f []) }) hm
  rcases hq : findMany cfg { noInstr with collection := some c, callback := some (fun _ => .bool true) } (setCol st c { col with secIdx := some (aset (col.secIdx.getD []) f []) }) with ⟨r, st2⟩
  rw [hq] at hfm
  have h2 : cacheFrame st st2 := cacheFrame_trans h0 hfm
  simp only [hq]
  rcases r with e | items
  · exact h2
  · rcases hc : colOf st2 c with _ | col2 <;> simp only [hc]
    · exact h2
    · rcases hsi : col2.secIdx with _ | sis <;> simp only [hsi]
      · exact h2
      · exact cacheFrame_trans h2 ⟨rfl, rfl⟩

theorem ensureBody_df (cfg : Config) (c f : String) (st : EngineState)
    (hf : cfg.folder = false) : diskFrame st (ensureBody cfg c f st).2 := by
  unfold ensureBody
  rcases hc : colOf st c with _ | col0 <;> simp only [hc]
  · exact diskFrame_refl st
  · by_cases hn : col0.secIdx.isNone = true
    · simp only [hn, if_true]
      exact diskFrame_trans
        (show diskFrame st (setCol st c { col0 with secIdx := some [] }) from
          ⟨rfl, rfl, rfl⟩)
        (ensurePopulate_df cfg c f _ _ hf)
    · simp only [if_neg hn]
      rcases ha : alook (col0.secIdx.getD []) f with _ | x <;> simp only [ha]
      · exact ensurePopulate_df cfg c f _ _ hf
      · exact diskFrame_refl st

theorem ensureBody_cf (cfg : Config) (c f : String) (st : EngineState)
    (hm : cfg.maxCacheSize = 0) : cacheFrame st (ensureBody cfg c f st).2 := by
  unfold ensureBody
  rcases hc : colOf st c with _ | col0 <;> simp only [hc]
  · exact cacheFrame_refl st
  · by_cases hn : col0.secIdx.isNone = true
    · simp only [hn, if_true]
      exact cacheFrame_trans
        (show cacheFrame st (setCol st c { col0 with secIdx := some [] }) from
          ⟨rfl, rfl⟩)
        (ensurePopulate_cf cfg c f _ _ hm)
    · simp only [if_neg hn]
      rcases ha : alook (col0.secIdx.getD []) f with _ | x <;> simp only [ha]
      · exact ensurePopulate_cf cfg c f _ _ hm
      · exact cacheFrame_refl st

theorem ensureIndex_df (cfg : Config) (i : Instructions) (st : EngineState)
    (hf : cfg.folder = false) : diskFrame st (ensureIndex cfg i st).2 := by
  unfold ensureIndex
  simp only [hf, Bool.false_eq_true, if_false]
  by_cases hdb : st.db.isNone = true
  · rw [if_pos hdb]
    exact diskFrame_refl st
  · rw [if_neg hdb]
    have hg := getCollection_df cfg (i.collection.getD "undefined") st hf
    generalize hG : getCollection cfg (i.collection.getD "undefined") st = st1 at hg ⊢
    by_cases hsk : (colOf st1 (i.collection.getD "undefined")).isNone = true
    · rw [if_pos hsk]
      exact diskFrame_trans (diskFrame_trans hg ⟨rfl, rfl, rfl⟩)
        (ensureBody_df cfg _ _ _ hf)
    · rw [if_neg hsk]
      exact diskFrame_trans hg (ensureBody_df cfg _ _ _ hf)

theorem ensureIndex_cf (cfg : Config) (i : Instructions) (st : EngineState)
    (hm : cfg.maxCacheSize = 0) : cacheFrame st (ensureIndex cfg i st).2 := by
  unfold ensureIndex
  by_cases hdb : st.db.isNone = true
  · rw [if_pos hdb]
    exact cacheFrame_refl st
  · rw [if_neg hdb]
    try dsimp only
    have hg := getCollection_cf cfg (i.collection.getD "undefined") st hm
    generalize hG : getCollection cfg (i.collection.getD "undefined") st = st1 at hg ⊢
    have hg2 : cacheFrame st (if cfg.folder = true then
        { st1 with dirty := pushNew st1.dirty (i.collection.getD "undefined") }
        else st1) := by
      split
      · exact cacheFrame_trans hg ⟨rfl, rfl⟩
      · exact hg
    generalize hW : (if cfg.folder = true then
        { st1 with dirty := pushNew st1.dirty (i.collection.getD "undefined") }
        else st1) = st2 at hg2 ⊢
    by_cases hsk : (colOf st2 (i.collection.getD "undefined")).isNone = true
    · rw [if_pos hsk]
      exact cacheFrame_trans (cacheFrame_trans hg2 ⟨rfl, rfl⟩)
        (ensureBody_cf cfg _ _ _ hm)
    · rw [if_neg hsk]
      exact cacheFrame_trans hg2 (ensureBody_cf cfg _ _ _ hm)

theorem rwBody_df (cfg : Config) (i : Instructions) (c : String)
    (st : EngineState) (hf : cfg.folder = false) :
    diskFrame st (rwBody cfg i c st).2 := by
  unfold rwBody
  have hfm := findMany_df cfg { noInstr with collection := some c, callback := some (fun _ => .bool true), sort := i.sort } st hf
  rcases hq : findMany cfg { noInstr with collection := some c, callback := some (fun _ => .bool true), sort := i.sort } st with ⟨r, st2⟩
  rw [hq] at hfm
  simp only [hq]
  rcases r with e | items
  · exact hfm
  · have h0 : diskFrame st (setCol st2 c emptyCollection) :=
      diskFrame_trans hfm ⟨rfl, rfl, rfl⟩
    have hcm := createMany_df cfg { noInstr with data := some (.arr items), index := i.index, collection := some c } (setCol st2 c emptyCollection) hf
    rcases hq2 : createMany cfg { noInstr with data := some (.arr items), index := i.index, collection := some c } (setCol st2 c emptyCollection) with ⟨r2, st3⟩
    rw [hq2] at hcm
    have h3 : diskFrame st st3 := diskFrame_trans h0 hcm
    simp only [hq2]
    rcases r2 with e2 | ok2
    · exact h3
    · exact h3

theorem rwBody_cf (cfg : Config) (i : Instructions) (c : String)
    (st : EngineState) (hm : cfg.maxCacheSize = 0) :
    cacheFrame st (rwBody cfg i c st).2 := by
  unfold rwBody
  have hfm := findMany_cf cfg { noInstr with collection := some c, callback := some (fun _ => .bool true), sort := i.sort } st hm
  rcases hq : findMany cfg { noInstr with collection := some c, callback := some (fun _ => .bool true), sort := i.sort } st with ⟨r, st2⟩
  rw [hq] at hfm
  simp only [hq]
  rcases r with e | items
  · exact hfm
  · have h0 : cacheFrame st (setCol st2 c emptyCollection) :=
      cacheFrame_trans hfm ⟨rfl, rfl⟩
    have hcm := createMany_cf cfg { noInstr with data := some (.arr items), index := i.index, collection := some c } (setCol st2 c emptyCollection) hm
    rcases hq2 : createMany cfg { noInstr with data := some (.arr items), index := i.index, collection := some c } (setCol st2 c emptyCollection) with ⟨r2, st3⟩
    rw [hq2] at hcm
    have h3 : cacheFrame st st3 := cacheFrame_trans h0 hcm
    simp only [hq2]
    rcases r2 with e2 | ok2
    · exact h3
    · exact h3

theorem rewriteCollection_df (cfg : Config) (i : Instructions) (st : EngineState)
    (hf : cfg.folder = false) : diskFrame st (rewriteCollection cfg i st).2 := by
  unfold rewriteCollection
  simp only [hf, Bool.false_eq_true, if_false]
  by_cases hdb : st.db.isNone = true
  · rw [if_pos hdb]
    exact diskFrame_refl st
  · rw [if_neg hdb]
    have hg := getCollection_df cfg (i.collection.getD "default") st hf
    generalize hG : getCollection cfg (i.collection.getD "default") st = st1 at hg ⊢
    rcases hc : colOf st1 (i.collection.getD "default") with _ | col <;> simp only [hc]
    · exact hg
    · exact diskFrame_trans hg (rwBody_df cfg i _ _ hf)

theorem rewriteCollection_cf (cfg : Config) (i : Instructions) (st : EngineState)
    (hm : cfg.maxCacheSize = 0) : cacheFrame st (rewriteCollection cfg i st).2 := by
  unfold rewriteCollection
  by_cases hdb : st.db.isNone = true
  · rw [if_pos hdb]
    exact cacheFrame_refl st
  · rw [if_neg hdb]
    try dsimp only
    have hg := getCollection_cf cfg (i.collection.getD "default") st hm
    generalize hG : getCollection cfg (i.collection.getD "default") st = st1 at hg ⊢
    have hg2 : cacheFrame st (if cfg.folder = true then
        { st1 with dirty := pushNew st1.dirty (i.collection.getD "default") }
        else st1) := by
      split
      · exact cacheFrame_trans hg ⟨rfl, rfl⟩
      · exact hg
    generalize hW : (if cfg.folder = true then
        { st1 with dirty := pushNew st1.dirty (i.collection.getD "default") }
        else st1) = st2 at hg2 ⊢
    rcases hc : colOf st2 (i.collection.getD "default") with _ | col <;> simp only [hc]
    · exact hg2
    · exact cacheFrame_trans hg2 (rwBody_cf cfg i _ _ hm)

theorem runOp_df (cfg : Config) (op : TxOp) (st : EngineState)
    (hf : cfg.folder = false) : diskFrame st (runOp cfg op st).2 := by
  cases op with
  | create i =>
    have h := create_df cfg i st hf
    unfold runOp
    rcases hc : create cfg i st with ⟨r, st2⟩
    rw [hc] at h
    simp only [hc]
    exact h
  | update i =>
    have h := update_df cfg i st hf
    unfold runOp
    rcases hc : update cfg i st with ⟨r, st2⟩
    rw [hc] at h
    simp only [hc]
    exact h
  | destroy i =>
    have h := destroy_df cfg i st hf
    unfold runOp
    rcases hc : destroy cfg i st with ⟨r, st2⟩
    rw [hc] at h
    simp only [hc]
    exact h
  | findMany i =>
    have h := findMany_df cfg i st hf
    unfold runOp
    rcases hc : findMany cfg i st with ⟨r, st2⟩
    rw [hc] at h
    simp only [hc]
    exact h
  | createMany i =>
    have h := createMany_df cfg i st hf
    unfold runOp
    rcases hc : createMany cfg i st with ⟨r, st2⟩
    rw [hc] at h
    simp only [hc]
    exact h
  | dropCollection i => exact dropCollection_df cfg i st hf
  | dropIndex i => exact dropIndex_df cfg i st hf
  | rewriteCollection i => exact rewriteCollection_df cfg i st hf
  | ensureIndex i => exact ensureIndex_df cfg i st hf
  | fail => exact diskFrame_refl st

theorem runOp_cf (cfg : Config) (op : TxOp) (st : EngineState)
    (hm : cfg.maxCacheSize = 0) : cacheFrame st (runOp cfg op st).2 := by
  cases op with
  | create i =>
    have h := create_cf cfg i st hm
    unfold runOp
    rcases hc : create cfg i st with ⟨r, st2⟩
    rw [hc] at h
    simp only [hc]
    exact h
  | update i =>
    have h := update_cf cfg i st hm
    unfold runOp
    rcases hc : update cfg i st with ⟨r, st2⟩
    rw [hc] at h
    simp only [hc]
    exact h
  | destroy i =>
    have h := destroy_cf cfg i st hm
    unfold runOp
    rcases hc : destroy cfg i st with ⟨r, st2⟩
    rw [hc] at h
    simp only [hc]
    exact h
  | findMany i =>
    have h := findMany_cf cfg i st hm
    unfold runOp
    rcases hc : findMany cfg i st with ⟨r, st2⟩
    rw [hc] at h
    simp only [hc]
    exact h
  | createMany i =>
    have h := createMany_cf cfg i st hm
    unfold runOp
    rcases hc : createMany cfg i st with ⟨r, st2⟩
    rw [hc] at h
    simp only [hc]
    exact h
  | dropCollection i => exact dropCollection_cf cfg i st hm
  | dropIndex i => exact dropIndex_cf cfg i st hm
  | rewriteCollection i => exact rewriteCollection_cf cfg i st hm
  | ensureIndex i => exact ensureIndex_cf cfg i st hm
  | fail => exact cacheFrame_refl st

end Sencillo

namespace Sencillo

theorem saveShard_cf (cfg : Config) (a b : String) (st : EngineState) :
    cacheFrame st (saveShard cfg a b st) := by
  unfold saveShard
  repeat' split
  all_goals first
    | exact cacheFrame_refl st
    | exact ⟨rfl, rfl⟩

theorem saveCollection_cf (cfg : Config) (a : String) (st : EngineState) :
    cacheFrame st (saveCollection cfg a st) := by
  unfold saveCollection
  repeat' split
  all_goals first
    | exact cacheFrame_refl st
    | exact ⟨rfl, rfl⟩

theorem saveColFold_cf (cfg : Config) :
    ∀ (l : List String) (st : EngineState),
      cacheFrame st (l.foldl (fun s c => saveCollection cfg c s) st)
  | [], st => cacheFrame_refl st
  | c :: rest, st => by
    simp only [List.foldl_cons]
    exact cacheFrame_trans (saveCollection_cf cfg c st) (saveColFold_cf cfg rest _)

theorem saveDB_cf (cfg : Config) (st : EngineState) :
    cacheFrame st (saveDB cfg st) := by
  unfold saveDB
  repeat' split
  all_goals first
    | exact cacheFrame_refl st
    | exact ⟨rfl, rfl⟩
    | exact cacheFrame_trans (saveColFold_cf cfg st.dirty st) ⟨rfl, rfl⟩

theorem appendAOF_cf (ops : List (String × Instructions)) (st : EngineState) :
    cacheFrame st (appendAOF ops st) := by
  unfold appendAOF
  split
  · exact cacheFrame_refl st
  · exact ⟨rfl, rfl⟩

theorem replayDispatch_cf (cfg : Config) (op : String) (instr : Instructions)
    (st : EngineState) (hm : cfg.maxCacheSize = 0) :
    cacheFrame st (replayDispatch cfg op instr st).2 := by
  unfold replayDispatch
  repeat' split
  all_goals first
    | exact runOp_cf cfg _ _ hm
    | exact cacheFrame_refl st

theorem replayDispatch_df (cfg : Config) (op : String) (instr : Instructions)
    (st : EngineState) (hf : cfg.folder = false) :
    diskFrame st (replayDispatch cfg op instr st).2 := by
  unfold replayDispatch
  repeat' split
  all_goals first
    | exact runOp_df cfg _ _ hf
    | exact diskFrame_refl st

theorem replayLines_cf (cfg : Config) (hm : cfg.maxCacheSize = 0) :
    ∀ (lines : List AofLine) (st : EngineState),
      cacheFrame st (replayLines cfg lines st)
  | [], st => cacheFrame_refl st
  | .malformed :: rest, st => by
    unfold replayLines
    exact replayLines_cf cfg hm rest st
  | .record op instr :: rest, st => by
    unfold replayLines
    exact cacheFrame_trans (replayDispatch_cf cfg op instr st hm)
      (replayLines_cf cfg hm rest _)

theorem replayLines_df (cfg : Config) (hf : cfg.folder = false) :
    ∀ (lines : List AofLine) (st : EngineState),
      diskFrame st (replayLines cfg lines st)
  | [], st => diskFrame_refl st
  | .malformed :: rest, st => by
    unfold replayLines
    exact replayLines_df cfg hf rest st
  | .record op instr :: rest, st => by
    unfold replayLines
    exact diskFrame_trans (replayDispatch_df cfg op instr st hf)
      (replayLines_df cfg hf rest _)

theorem loadDB_cf (cfg : Config) (st : EngineState)
    (hm : cfg.maxCacheSize = 0) : cacheFrame st (loadDB cfg st) := by
  unfold loadDB
  split
  · exact cacheFrame_refl st
  · have h0 : cacheFrame st { st with db := some st.disk.base } := ⟨rfl, rfl⟩
    split
    · dsimp only
      rcases hl : st.disk.aof with _ | lines <;> simp only [hl]
      · exact h0
      · exact cacheFrame_trans
          (cacheFrame_trans h0 (replayLines_cf cfg hm _ _)) ⟨rfl, rfl⟩
    · exact h0

theorem loadDB_noaof (cfg : Config) (st : EngineState)
    (hf : cfg.folder = false) (ha : cfg.aof = false) :
    loadDB cfg st = { st with db := some st.disk.base } := by
  unfold loadDB
  simp only [hf, ha, Bool.false_eq_true, if_false]

theorem runTxBody_cf (cfg : Config) (hm : cfg.maxCacheSize = 0) :
    ∀ (prog : List TxOp) (st : EngineState),
      cacheFrame st (runTxBody cfg prog st).2
  | [], st => cacheFrame_refl st
  | op :: rest, st => by
    unfold runTxBody
    have h0 : cacheFrame st (if (cfg.aof && op.isMutating) = true then
        { st with pendingOps := st.pendingOps ++ [(op.opName, op.instr)] }
        else st) := by
      split
      · exact ⟨rfl, rfl⟩
      · exact cacheFrame_refl st
    generalize hW : (if (cfg.aof && op.isMutating) = true then
        { st with pendingOps := st.pendingOps ++ [(op.opName, op.instr)] }
        else st) = st1 at h0 ⊢
    have hro := runOp_cf cfg op st1 hm
    rcases hq : runOp cfg op st1 with ⟨r, st2⟩
    rw [hq] at hro
    simp only [hq]
    rcases r with e | u
    · exact cacheFrame_trans h0 hro
    · exact cacheFrame_trans (cacheFrame_trans h0 hro) (runTxBody_cf cfg hm rest st2)

theorem runTxBody_df (cfg : Config) (hf : cfg.folder = false)
    (ha : cfg.aof = false) :
    ∀ (prog : List TxOp) (st : EngineState),
      diskFrame st (runTxBody cfg prog st).2
  | [], st => diskFrame_refl st
  | op :: rest, st => by
    unfold runTxBody
    simp only [ha, Bool.false_and, Bool.false_eq_true, if_false]
    have hro := runOp_df cfg op st hf
    rcases hq : runOp cfg op st with ⟨r, st2⟩
    rw [hq] at hro
    try simp only [hq]
    rcases r with e | u
    · exact hro
    · exact diskFrame_trans hro (runTxBody_df cfg hf ha rest st2)

theorem txFinish_cf (cfg : Config) (prog : List TxOp) (st : EngineState)
    (hm : cfg.maxCacheSize = 0) : cacheFrame st (txFinish cfg prog st).2 := by
  unfold txFinish
  have hb := runTxBody_cf cfg hm prog st
  rcases hq : runTxBody cfg prog st with ⟨r, st2⟩
  rw [hq] at hb
  rcases r with e | u <;> try dsimp only
  · cases hfo : cfg.folder with
    | true =>
      simp only [hfo, Bool.true_and]
      repeat' split
      all_goals first
        | exact cacheFrame_trans hb ⟨rfl, rfl⟩
        | exact hb
        | simp_all
    | false =>
      simp only [hfo, Bool.false_eq_true, if_false, Bool.false_and]
      exact cacheFrame_trans hb (loadDB_cf cfg st2 hm)
  · cases hao : cfg.aof with
    | true =>
      simp only [hao]
      exact cacheFrame_trans (cacheFrame_trans hb (appendAOF_cf _ st2)) ⟨rfl, rfl⟩
    | false =>
      simp only [hao, Bool.false_eq_true, if_false]
      exact cacheFrame_trans (cacheFrame_trans hb (saveDB_cf cfg st2)) ⟨rfl, rfl⟩

theorem transaction_cf (cfg : Config) (prog : List TxOp) (st : EngineState)
    (hm : cfg.maxCacheSize = 0) : cacheFrame st (transaction cfg prog st).2 := by
  unfold transaction
  rcases hd : st.db with _ | d <;> simp only [hd]
  · by_cases hfo : cfg.folder = true
    · rw [if_pos hfo]
      exact cacheFrame_trans (cacheFrame_trans
        (show cacheFrame st { st with db := some [] } from ⟨rfl, rfl⟩)
        ⟨rfl, rfl⟩) (txFinish_cf cfg prog _ hm)
    · rw [if_neg hfo]
      exact cacheFrame_trans (cacheFrame_trans (loadDB_cf cfg st hm) ⟨rfl, rfl⟩)
        (txFinish_cf cfg prog _ hm)
  · exact cacheFrame_trans
      (show cacheFrame st { st with pendingOps := [] } from ⟨rfl, rfl⟩)
      (txFinish_cf cfg prog _ hm)

theorem runTransactions_cf (cfg : Config) (hm : cfg.maxCacheSize = 0) :
    ∀ (progs : List (List TxOp)) (st : EngineState),
      cacheFrame st (runTransactions cfg progs st)
  | [], st => cacheFrame_refl st
  | p :: rest, st => by
    unfold runTransactions
    exact cacheFrame_trans (transaction_cf cfg p st hm)
      (runTransactions_cf cfg hm rest _)

/-- C4 (amended): with `maxCacheSize` 0 (the default, "no limit"), the cache
machinery is fully inert over every transaction sequence from a fresh
engine: the LRU stays empty and no eviction ever runs.  (The original
claim's second half — that the LRU is inert in single-file mode for every
`maxCacheSize` — is refuted by `claim_C4_counterexample`.) -/
theorem claim_C4_amended (cfg : Config) (hm : cfg.maxCacheSize = 0)
    (progs : List (List TxOp)) :
    (runTransactions cfg progs initState).evictions = 0 ∧
    (runTransactions cfg progs initState).lru = [] := by
  have h := runTransactions_cf cfg hm progs initState
  exact ⟨h.2, h.1⟩

theorem claim_C4_amended_witness :
    (runTransactions cfgDefault [c8prog] initState).evictions = 0 ∧
    (runTransactions cfgDefault [c8prog] initState).lru = [] :=
  claim_C4_amended cfgDefault rfl [c8prog]

theorem txFinish_err (cfg : Config) (prog : List TxOp) (st : EngineState)
    (hf : cfg.folder = false) (ha : cfg.aof = false) :
    ∀ e post, txFinish cfg prog st = (.error e, post) →
      post.db = some st.disk.base ∧ post.disk = st.disk := by
  intro e post hr
  unfold txFinish at hr
  have hb := runTxBody_df cfg hf ha prog st
  rcases hq : runTxBody cfg prog st with ⟨r, st2⟩
  rw [hq] at hb hr
  rcases r with e2 | u
  · simp only [hf, Bool.false_eq_true, if_false, Bool.false_and,
      loadDB_noaof cfg st2 hf ha] at hr
    injection hr with h1 h2
    rw [← h2]
    constructor
    · show some st2.disk.base = some st.disk.base
      rw [hb.1]
    · show st2.disk = st.disk
      exact hb.1
  · exact absurd hr (by simp)

/-- C1 (amended): in single-file mode without AOF, for an engine whose
resident store mirrors the disk base document, a transaction that throws
restores both the resident store and the entire disk state.  (The
unqualified claim over every configuration is refuted by
`claim_C1_counterexample`.) -/
theorem claim_C1_amended (cfg : Config) (prog : List TxOp) (st : EngineState)
    (hf : cfg.folder = false) (ha : cfg.aof = false)
    (hdb : st.db = some st.disk.base) :
    ∀ e post, transaction cfg prog st = (.error e, post) →
      post.db = st.db ∧ post.disk = st.disk := by
  intro e post hr
  unfold transaction at hr
  simp only [hdb] at hr
  have h := txFinish_err cfg prog
    { st with db := some st.disk.base, pendingOps := [] } hf ha e post hr
  constructor
  · rw [hdb]
    exact h.1
  · exact h.2

theorem claim_C1_amended_witness :
    cfgDefault.folder = false ∧ cfgDefault.aof = false ∧
    stLoaded.db = some stLoaded.disk.base ∧
    (∀ e post, transaction cfgDefault dropThenFail stLoaded = (.error e, post) →
      post.db = stLoaded.db ∧ post.disk = stLoaded.disk) :=
  ⟨rfl, rfl, rfl, claim_C1_amended cfgDefault dropThenFail stLoaded rfl rfl rfl⟩

/-- C7: AOF replay runs only on the single-file load path.  In folder or
sharded mode `#loadDB` is a no-op.  In single-file mode with AOF enabled
and an existing AOF file, the load equals a base-document load followed by
a line-by-line replay with the pending-operation buffer cleared, and the
replay touches no storage file at all — in particular it never re-appends
to the AOF. -/
theorem claim_C7_aof_replay (cfg : Config) (st : EngineState) :
    (cfg.folder = true → loadDB cfg st = st) ∧
    (cfg.folder = false → cfg.aof = true → ∀ lines, st.disk.aof = some lines →
      loadDB cfg st =
        { replayLines cfg lines { st with db := some st.disk.base } with
            pendingOps := [] } ∧
      (loadDB cfg st).disk = st.disk ∧
      (loadDB cfg st).disk.aof = st.disk.aof) := by
  constructor
  · intro hfo
    unfold loadDB
    rw [if_pos hfo]
  · intro hf ha lines hl
    have heq : loadDB cfg st =
        { replayLines cfg lines { st with db := some st.disk.base } with
            pendingOps := [] } := by
      unfold loadDB
      simp only [hf, ha, hl, Bool.false_eq_true, if_false, if_true]
    have hd := replayLines_df cfg hf lines { st with db := some st.disk.base }
    refine ⟨heq, ?_, ?_⟩
    · rw [heq]
      exact hd.1
    · rw [heq]
      show (replayLines cfg lines { st with db := some st.disk.base }).disk.aof
        = st.disk.aof
      rw [hd.1]

theorem claim_C7_aof_replay_witness :
    cfgFolder.folder = true ∧ loadDB cfgFolder stWithAof = stWithAof ∧
    cfgAof.folder = false ∧ cfgAof.aof = true ∧
    stWithAof.disk.aof = some aofMixedLines ∧
    loadDB cfgAof stWithAof =
      { replayLines cfgAof aofMixedLines
          { stWithAof with db := some stWithAof.disk.base } with
          pendingOps := [] } ∧
    (loadDB cfgAof stWithAof).disk.aof = stWithAof.disk.aof :=
  ⟨rfl, (claim_C7_aof_replay cfgFolder stWithAof).1 rfl, rfl, rfl, rfl,
    ((claim_C7_aof_replay cfgAof stWithAof).2 rfl rfl aofMixedLines rfl).1,
    ((claim_C7_aof_replay cfgAof stWithAof).2 rfl rfl aofMixedLines rfl).2.2⟩

end Sencillo

namespace Sencillo

/-- C2 fails as stated: a committed `rewriteCollection` rebuilds the
collection from its live documents only, so `Stats.inserted` drops from 2
to 1 (not non-decreasing), while the count of successful `create`
invocations against the collection — including the one inside
`rewriteCollection` — is 3. -/
theorem claim_C2_counterexample :
    committedRun cfgDefault [insertInsertDestroy, rewriteOnly] initState = true ∧
    insOf (runT rtFalse [insertInsertDestroy]) "default" = 2 ∧
    insOf (runT rtFalse [insertInsertDestroy, rewriteOnly]) "default" = 1 ∧
    ghostOf (runT rtFalse [insertInsertDestroy, rewriteOnly]) "default" = 3 := by
  refine ⟨?_, ?_, ?_, ?_⟩ <;> rfl

end Sencillo
